import Mathlib

/-!
Verification development for the contract-extraction backend
(`backend/contract_extractor.py` and
`backend/semantics/date_semantic_validator.py`).

Embedding conventions:
* Text is modelled as `Str := List Char` (Python `str`).  String literals
  enter through `String.data`.
* Python floats used for confidence scores are modelled as rationals `ℚ`;
  every score in the source is a sum of the literals 0.2/0.3/0.4 clamped
  by `min(·, 1.0)`, and every comparison in the source is against such a
  literal, so the rational model decides every branch the same way the
  float program does.
* The hard-coded regular expressions of the source are embedded as
  executable matchers (a small backtracking engine `RE` for the
  boolean-search patterns, and dedicated functions where the match extent
  matters).  Python's `re.IGNORECASE` is modelled by case-insensitive
  literal matching; `\s` / `\w` are modelled on their ASCII meaning,
  which coincides with Python's on the ASCII texts the patterns target.
* External collaborators (PDF loader, spaCy sentencizer, the YAML
  pattern table with its configured regex strings, the Mistral client)
  are parameters of the embedded functions, exactly at the call/return
  boundaries §6 of the specification declares them opaque.
-/

abbrev Str := List Char

/-- Python `\s` (ASCII): space, tab, newline, carriage return, vertical
tab, form feed.  Also the character set of `str.strip()`. -/
def pyIsSpace (c : Char) : Bool :=
  c = ' ' || c = '\t' || c = '\n' || c = '\r' || c = '\x0b' || c = '\x0c'

/-- Python `\w` (ASCII): alphanumeric or underscore. -/
def isWordChar (c : Char) : Bool :=
  c.isAlphanum || c = '_'

/-- Python `str.strip()` with no argument: drop whitespace at both ends. -/
def pyStrip (s : Str) : Str :=
  ((s.dropWhile pyIsSpace).reverse.dropWhile pyIsSpace).reverse

/-- Lowercase a Python string (`str.lower()`, ASCII fragment). -/
def pyLower (s : Str) : Str := s.map Char.toLower

-- ------------------------------------------------------------------
-- A small backtracking engine for the hard-coded regexes.
-- Only the features those regexes use are present: literals
-- (case-insensitive, as all uses either set IGNORECASE or run on
-- lowercased text), `\s+`, alternation, option, `\b`, `$`.
-- ------------------------------------------------------------------

inductive RE where
  | fail
  | eps
  | lit (cs : Str)
  | wsP
  | alt (a b : RE)
  | seq (a b : RE)
  | opt (a : RE)
  | wb
  | eol
deriving Repr

/-- Case-insensitively strip the literal `cs` from the front of `s`,
tracking the last consumed character (needed for `\b`). -/
def stripPrefixCI : Str → Option Char → Str → Option (Option Char × Str)
  | [], p, s => some (p, s)
  | _ :: _, _, [] => none
  | c :: cs, _, x :: xs =>
      if c.toLower = x.toLower then stripPrefixCI cs (some x) xs else none

/-- All ways `\s+` can consume a non-empty whitespace prefix. -/
def wsTake : Option Char → Str → List (Option Char × Str)
  | _, [] => []
  | _, c :: cs => if pyIsSpace c then (some c, cs) :: wsTake (some c) cs else []

def isWordOpt : Option Char → Bool
  | none => false
  | some c => isWordChar c

/-- `run r prev s` returns every `(last consumed char, remainder)` pair
reachable by matching `r` at the start of `s`; `prev` is the character
just before the current position (for `\b`). -/
def RE.run : RE → Option Char → Str → List (Option Char × Str)
  | .fail, _, _ => []
  | .eps, p, s => [(p, s)]
  | .lit cs, p, s =>
      match stripPrefixCI cs p s with
      | some r => [r]
      | none => []
  | .wsP, p, s => wsTake p s
  | .alt a b, p, s => a.run p s ++ b.run p s
  | .seq a b, p, s => (a.run p s).flatMap fun r => b.run r.1 r.2
  | .opt a, p, s => (p, s) :: a.run p s
  | .wb, p, s =>
      if isWordOpt p ≠ isWordOpt (s.head?.map id |>.bind some) then
        [(p, s)]
      else []
  | .eol, p, s => if s.isEmpty || s.head? = some '\n' then [(p, s)] else []

/-- `re.search` truncated to a boolean: does `r` match starting at some
position of `s`?  `p` is the character before the current position. -/
def RE.searchAux (r : RE) : Option Char → Str → Bool
  | p, [] => !(r.run p []).isEmpty
  | p, c :: cs => !(r.run p (c :: cs)).isEmpty || r.searchAux (some c) cs

def RE.search (r : RE) (s : Str) : Bool := r.searchAux none s

/-- `re.match` truncated to a boolean: does `r` match at position 0? -/
def RE.matchAt0 (r : RE) (s : Str) : Bool := !(r.run none s).isEmpty

def RE.seqs (l : List RE) : RE := l.foldr .seq .eps

def RE.alts : List RE → RE
  | [] => .fail
  | [x] => x
  | x :: xs => .alt x (RE.alts xs)

def L (s : String) : RE := .lit s.data

-- ------------------------------------------------------------------
-- backend/semantics/date_semantic_validator.py
-- ------------------------------------------------------------------

inductive DateType where
  | Binding
  | Example
  | Historical
  | Conditional
  | Unknown
deriving DecidableEq, Repr

structure DateContext where
  date_type : DateType
  confidence : ℚ
  supporting_text : Str
deriving DecidableEq, Repr

/-- `self.binding_patterns` of `DateSemanticValidator.__init__`. -/
def binding_patterns : List RE :=
  [ -- r"\b(?:effective|commence|start|begin|binding|entered\s+into)\s+(?:as\s+of|on|from)\b"
    RE.seqs [.wb,
      RE.alts [L "effective", L "commence", L "start", L "begin", L "binding",
               RE.seqs [L "entered", .wsP, L "into"]],
      .wsP,
      RE.alts [RE.seqs [L "as", .wsP, L "of"], L "on", L "from"],
      .wb],
    -- r"\b(?:term|agreement)\s+(?:shall\s+)?(?:commence|begin|start)\b"
    RE.seqs [.wb, RE.alts [L "term", L "agreement"], .wsP,
      .opt (RE.seqs [L "shall", .wsP]),
      RE.alts [L "commence", L "begin", L "start"], .wb],
    -- r"\beffective\s+date\b"
    RE.seqs [.wb, L "effective", .wsP, L "date", .wb],
    -- r"\b(?:signed|executed)\s+on\b"
    RE.seqs [.wb, RE.alts [L "signed", L "executed"], .wsP, L "on", .wb] ]

/-- `self.example_patterns`. -/
def example_patterns : List RE :=
  [ -- r"\b(?:for\s+(?:instance|example)|such\s+as|e\.?g\.?)\b"
    RE.seqs [.wb,
      RE.alts [RE.seqs [L "for", .wsP, RE.alts [L "instance", L "example"]],
               RE.seqs [L "such", .wsP, L "as"],
               RE.seqs [L "e", .opt (L "."), L "g", .opt (L ".")]],
      .wb],
    -- r"\b(?:assume|suppose|hypothetical)\b"
    RE.seqs [.wb, RE.alts [L "assume", L "suppose", L "hypothetical"], .wb],
    -- r"\bif\s+(?:the\s+)?(?:date|agreement)\b"
    RE.seqs [.wb, L "if", .wsP, .opt (RE.seqs [L "the", .wsP]),
      RE.alts [L "date", L "agreement"], .wb] ]

/-- `self.historical_patterns`. -/
def historical_patterns : List RE :=
  [ -- r"\b(?:previously|formerly|prior)\s+(?:dated|effective)\b"
    RE.seqs [.wb, RE.alts [L "previously", L "formerly", L "prior"], .wsP,
      RE.alts [L "dated", L "effective"], .wb],
    -- r"\bwas\s+(?:effective|signed|dated)\b"
    RE.seqs [.wb, L "was", .wsP, RE.alts [L "effective", L "signed", L "dated"], .wb],
    -- r"\bold\s+(?:agreement|contract|date)\b"
    RE.seqs [.wb, L "old", .wsP, RE.alts [L "agreement", L "contract", L "date"], .wb] ]

/-- `self.conditional_patterns`. -/
def conditional_patterns : List RE :=
  [ -- r"\bif\s+(?:extended|renewed|terminated)\b"
    RE.seqs [.wb, L "if", .wsP, RE.alts [L "extended", L "renewed", L "terminated"], .wb],
    -- r"\bshould\s+the\s+date\b"
    RE.seqs [.wb, L "should", .wsP, L "the", .wsP, L "date", .wb],
    -- r"\bunless\s+(?:extended|terminated)\b"
    RE.seqs [.wb, L "unless", .wsP, RE.alts [L "extended", L "terminated"], .wb],
    -- r"\bprovided\s+that\b"
    RE.seqs [.wb, L "provided", .wsP, L "that", .wb] ]

/-- The contract-recital phrase regex of `_check_binding`:
`r"is\s+made\s+and\s+entered\s+into\s+as\s+of\b"`. -/
def recital_re : RE :=
  RE.seqs [L "is", .wsP, L "made", .wsP, L "and", .wsP, L "entered", .wsP,
    L "into", .wsP, L "as", .wsP, L "of", .wb]

/-- `r"\b(?:shall|will|must)\b"` of `_check_binding`. -/
def modal_re : RE := RE.seqs [.wb, RE.alts [L "shall", L "will", L "must"], .wb]

/-- `r"\bday\s+of\b"` of `_check_binding`. -/
def day_of_re : RE := RE.seqs [.wb, L "day", .wsP, L "of", .wb]

/-- `r"\b(?:was|were|had)\b"` of `_check_historical`. -/
def past_tense_re : RE := RE.seqs [.wb, RE.alts [L "was", L "were", L "had"], .wb]

-- ------------------------------------------------------------------
-- Scores.  Every score constant of the validator (0.2, 0.3, 0.4, the
-- 1.0 cap, the 0.3 threshold, the 0.1 floor) is a decimal tenth, and
-- IEEE rounding of the corresponding float sums never crosses any of
-- the comparisons the source performs (`< 0.3` and `min(·, 1.0)`), so
-- scores are computed exactly in integer tenths and divided by 10 only
-- in the final `confidence` field.
-- ------------------------------------------------------------------

/-- Python `min(a, b)` on scores in tenths: returns `b` only when it is
strictly smaller. -/
def pyMinN (a b : Nat) : Nat := if b < a then b else a

theorem pyMinN_le_right (a b : Nat) : pyMinN a b ≤ b := by
  unfold pyMinN
  by_cases h : b < a
  · simp [h]
  · simpa [h] using Nat.not_lt.mp h

/-- The `score += w` accumulation loop each `_check_*` method runs over
its pattern list (`w` in tenths). -/
def accumScore (patterns : List RE) (w : Nat) (context : Str) : Nat :=
  patterns.foldl (fun sc p => if RE.search p context then sc + w else sc) 0

/-- `DateSemanticValidator._check_binding` (score in tenths). -/
def check_binding (context : Str) : Nat :=
  if RE.search recital_re context then 10
  else
    let score := accumScore binding_patterns 3 context
    let score := if RE.search modal_re context then score + 2 else score
    let score := if RE.search day_of_re context then score + 4 else score
    pyMinN score 10

/-- `DateSemanticValidator._check_example` (score in tenths). -/
def check_example (context : Str) : Nat :=
  pyMinN (accumScore example_patterns 4 context) 10

/-- `DateSemanticValidator._check_historical` (score in tenths). -/
def check_historical (context : Str) : Nat :=
  let score := accumScore historical_patterns 4 context
  let score := if RE.search past_tense_re context then score + 2 else score
  pyMinN score 10

/-- `DateSemanticValidator._check_conditional` (score in tenths). -/
def check_conditional (context : Str) : Nat :=
  pyMinN (accumScore conditional_patterns 3 context) 10

/-- Python `max(scores, key=lambda x: x[1])` starting from head `x`:
keeps the current element unless a later one is strictly greater, hence
returns the first maximal element. -/
def pyMaxBySnd (x : DateType × Nat) (l : List (DateType × Nat)) : DateType × Nat :=
  l.foldl (fun acc y => if y.2 > acc.2 then y else acc) x

/-- The `best_type, best_score = max(scores, key=...)` step of
`validate_date`, over the scores list in its evaluation order. -/
def date_best (context_lower : Str) : DateType × Nat :=
  pyMaxBySnd (DateType.Binding, check_binding context_lower)
    [(DateType.Example, check_example context_lower),
     (DateType.Historical, check_historical context_lower),
     (DateType.Conditional, check_conditional context_lower)]

/-- The `if best_score < 0.3` demotion step of `validate_date`
(in tenths: `< 3`, floor `1`). -/
def date_best_demoted (context_lower : Str) : DateType × Nat :=
  if (date_best context_lower).2 < 3 then (DateType.Unknown, 1)
  else date_best context_lower

/-- `supporting_text=context[:200] + "..." if len(context) > 200 else context`. -/
def supportingText (context : Str) : Str :=
  if context.length > 200 then context.take 200 ++ "...".data else context

/-- `DateSemanticValidator.validate_date`. -/
def validate_date (_date_match : Str) (context : Str) : DateContext :=
  { date_type := (date_best_demoted (pyLower context)).1
    confidence := ((date_best_demoted (pyLower context)).2 : ℚ) / 10
    supporting_text := supportingText context }

-- ------------------------------------------------------------------
-- Validator lemmas
-- ------------------------------------------------------------------

theorem pyMaxBySnd_of_le (x : DateType × Nat) (l : List (DateType × Nat))
    (h : ∀ y ∈ l, y.2 ≤ x.2) : pyMaxBySnd x l = x := by
  induction l with
  | nil => rfl
  | cons y ys ih =>
      have hy : y.2 ≤ x.2 := h y (List.mem_cons_self _ _)
      have hnot : ¬ (y.2 > x.2) := Nat.not_lt.mpr hy
      simp only [pyMaxBySnd, List.foldl_cons, if_neg hnot]
      exact ih fun z hz => h z (List.mem_cons_of_mem _ hz)

theorem pyMaxBySnd_mem (x : DateType × Nat) (l : List (DateType × Nat)) :
    pyMaxBySnd x l ∈ x :: l := by
  induction l generalizing x with
  | nil => simp [pyMaxBySnd]
  | cons y ys ih =>
      simp only [pyMaxBySnd, List.foldl_cons]
      by_cases h : y.2 > x.2
      · simp only [if_pos h]
        have hm := ih y
        simp only [pyMaxBySnd] at hm
        rcases List.mem_cons.mp hm with h' | h'
        · rw [h']; simp
        · simp [List.mem_cons, h']
      · simp only [if_neg h]
        have hm := ih x
        simp only [pyMaxBySnd] at hm
        rcases List.mem_cons.mp hm with h' | h'
        · rw [h']; simp
        · simp [List.mem_cons, h']

theorem check_binding_le_ten (c : Str) : check_binding c ≤ 10 := by
  unfold check_binding
  by_cases h : RE.search recital_re c
  · simp [h]
  · simp only [h, Bool.false_eq_true, if_false]
    exact pyMinN_le_right _ _

theorem check_example_le_ten (c : Str) : check_example c ≤ 10 :=
  pyMinN_le_right _ _

theorem check_historical_le_ten (c : Str) : check_historical c ≤ 10 :=
  pyMinN_le_right _ _

theorem check_conditional_le_ten (c : Str) : check_conditional c ≤ 10 :=
  pyMinN_le_right _ _

theorem date_best_of_recital (cl : Str) (h : RE.search recital_re cl = true) :
    date_best cl = (DateType.Binding, 10) := by
  have hb : check_binding cl = 10 := by
    unfold check_binding; simp [h]
  unfold date_best
  rw [hb]
  apply pyMaxBySnd_of_le
  intro y hy
  simp only [List.mem_cons, List.not_mem_nil, or_false] at hy
  rcases hy with h' | h' | h'
  · rw [h']; exact check_example_le_ten _
  · rw [h']; exact check_historical_le_ten _
  · rw [h']; exact check_conditional_le_ten _

/-- C9: a context containing the contract-recital phrase yields
`date_type = Binding` with confidence exactly 1; the Binding hypothesis
is first in the evaluation order, so it wins the tie with any other
score that also reaches the 1.0 cap. -/
theorem validate_date_recital_binding (d ctx : Str)
    (h : RE.search recital_re (pyLower ctx) = true) :
    (validate_date d ctx).date_type = DateType.Binding ∧
      (validate_date d ctx).confidence = 1 := by
  have hbest := date_best_of_recital (pyLower ctx) h
  have hdem : date_best_demoted (pyLower ctx) = (DateType.Binding, 10) := by
    unfold date_best_demoted
    rw [hbest]
    norm_num
  constructor
  · show (date_best_demoted (pyLower ctx)).1 = DateType.Binding
    rw [hdem]
  · show ((date_best_demoted (pyLower ctx)).2 : ℚ) / 10 = 1
    rw [hdem]
    norm_num

/-- C9 witness: a concrete recital context. -/
theorem validate_date_recital_binding_witness :
    RE.search recital_re
        (pyLower "This Agreement is made and entered into as of January 1, 2020".data) = true ∧
      (validate_date "January 1, 2020".data
          "This Agreement is made and entered into as of January 1, 2020".data).date_type =
        DateType.Binding :=
  ⟨by decide,
   (validate_date_recital_binding "January 1, 2020".data
      "This Agreement is made and entered into as of January 1, 2020".data (by decide)).1⟩

/-- C10: `validate_date` always returns a confidence in [0.1, 1]; a
classified (non-Unknown) type has confidence at least 0.3, and Unknown
has confidence exactly 0.1. -/
theorem validate_date_confidence_bounds (d ctx : Str) :
    1/10 ≤ (validate_date d ctx).confidence ∧
      (validate_date d ctx).confidence ≤ 1 ∧
      ((validate_date d ctx).date_type ≠ DateType.Unknown →
        3/10 ≤ (validate_date d ctx).confidence) ∧
      ((validate_date d ctx).date_type = DateType.Unknown →
        (validate_date d ctx).confidence = 1/10) := by
  have hmem := pyMaxBySnd_mem (DateType.Binding, check_binding (pyLower ctx))
    [(DateType.Example, check_example (pyLower ctx)),
     (DateType.Historical, check_historical (pyLower ctx)),
     (DateType.Conditional, check_conditional (pyLower ctx))]
  rw [show pyMaxBySnd (DateType.Binding, check_binding (pyLower ctx))
      [(DateType.Example, check_example (pyLower ctx)),
       (DateType.Historical, check_historical (pyLower ctx)),
       (DateType.Conditional, check_conditional (pyLower ctx))] =
      date_best (pyLower ctx) from rfl] at hmem
  simp only [List.mem_cons, List.not_mem_nil, or_false] at hmem
  have hle10 : (date_best (pyLower ctx)).2 ≤ 10 := by
    rcases hmem with h | h | h | h
    · rw [h]; exact check_binding_le_ten _
    · rw [h]; exact check_example_le_ten _
    · rw [h]; exact check_historical_le_ten _
    · rw [h]; exact check_conditional_le_ten _
  have htype : (date_best (pyLower ctx)).1 ≠ DateType.Unknown := by
    rcases hmem with h | h | h | h <;> (rw [h]; simp)
  have econf : (validate_date d ctx).confidence =
      ((date_best_demoted (pyLower ctx)).2 : ℚ) / 10 := rfl
  have etype : (validate_date d ctx).date_type =
      (date_best_demoted (pyLower ctx)).1 := rfl
  by_cases hlt : (date_best (pyLower ctx)).2 < 3
  · have hdem : date_best_demoted (pyLower ctx) = (DateType.Unknown, 1) := by
      unfold date_best_demoted; rw [if_pos hlt]
    rw [econf, etype, hdem]
    refine ⟨by norm_num, by norm_num, ?_, fun _ => by norm_num⟩
    intro hne; exact absurd rfl hne
  · have hdem : date_best_demoted (pyLower ctx) = date_best (pyLower ctx) := by
      unfold date_best_demoted; rw [if_neg hlt]
    have h3 : 3 ≤ (date_best (pyLower ctx)).2 := Nat.not_lt.mp hlt
    rw [econf, etype, hdem]
    refine ⟨?_, ?_, fun _ => ?_, fun hu => absurd hu htype⟩
    · calc (1:ℚ)/10 ≤ 3/10 := by norm_num
        _ ≤ ((date_best (pyLower ctx)).2 : ℚ) / 10 := by
            apply div_le_div_of_nonneg_right ?_ (by norm_num)
            exact_mod_cast h3
    · rw [div_le_one (by norm_num : (0:ℚ) < 10)]
      exact_mod_cast hle10
    · apply div_le_div_of_nonneg_right ?_ (by norm_num)
      exact_mod_cast h3

/-- C10 witness at a concrete input (Unknown branch). -/
theorem validate_date_confidence_bounds_witness :
    (validate_date "x".data "nothing relevant".data).confidence = 1/10 :=
  (validate_date_confidence_bounds "x".data "nothing relevant".data).2.2.2 (by decide)

-- ------------------------------------------------------------------
-- backend/contract_extractor.py : string utilities
-- ------------------------------------------------------------------

/-- Case-insensitive prefix test (the effect of `re.IGNORECASE` on an
escaped literal). -/
def startsWithCI : Str → Str → Bool
  | [], _ => true
  | _ :: _, [] => false
  | c :: cs, x :: xs => c.toLower = x.toLower && startsWithCI cs xs

/-- Python `str.find`: index of the first occurrence of `needle` in the
remaining text, `i` positions into the original. -/
def strFindAux (needle : Str) : Str → Nat → Option Nat
  | [], i => if needle.isEmpty then some i else none
  | s@(_ :: t), i => if needle.isPrefixOf s then some i else strFindAux needle t (i + 1)

def strFind (hay needle : Str) : Option Nat := strFindAux needle hay 0

/-- Case-insensitive `strFind`. -/
def strFindCIAux (needle : Str) : Str → Nat → Option Nat
  | [], i => if needle.isEmpty then some i else none
  | s@(_ :: t), i => if startsWithCI needle s then some i else strFindCIAux needle t (i + 1)

def strFindCI (hay needle : Str) : Option Nat := strFindCIAux needle hay 0

def containsSub (hay needle : Str) : Bool := (strFind hay needle).isSome

/-- `re.sub(r"\s+", " ", t)`: collapse every whitespace run to one
space.  The flag records whether the previous character was whitespace
(already emitted as the single space). -/
def collapseWsAux : Bool → Str → Str
  | _, [] => []
  | prevWs, c :: t =>
      if pyIsSpace c then
        if prevWs then collapseWsAux true t else ' ' :: collapseWsAux true t
      else c :: collapseWsAux false t

def collapseWs (s : Str) : Str := collapseWsAux false s

/-- Python `str.split()` (no argument): whitespace runs separate words,
no empty words. -/
def splitWsAux : Str → Str → List Str
  | acc, [] => if acc.isEmpty then [] else [acc.reverse]
  | acc, c :: t =>
      if pyIsSpace c then
        if acc.isEmpty then splitWsAux [] t else acc.reverse :: splitWsAux [] t
      else splitWsAux (c :: acc) t

def splitWs (s : Str) : List Str := splitWsAux [] s

/-- `" ".join(l)`. -/
def joinSp (l : List Str) : Str := List.intercalate " ".data l

/-- `int()` on a digit run. -/
def natOfDigits (ds : Str) : Nat :=
  ds.foldl (fun a c => a * 10 + (c.toNat - '0'.toNat)) 0

/-- `[hi, hi-1, ..., lo]`, empty when `hi < lo` — the descending
`range(hi, lo-1, -1)` loops of the source. -/
def descRange (hi lo : Nat) : List Nat :=
  (List.range (hi + 1 - lo)).map (fun i => hi - i)

def headWord (s : Str) : Bool :=
  match s with
  | [] => false
  | c :: _ => isWordChar c

-- ------------------------------------------------------------------
-- `_normalize_for_matching`
-- ------------------------------------------------------------------

/-- `ContractExtractor._normalize_for_matching`: replace every
non-word, non-space character by a space, collapse whitespace, strip,
lowercase. -/
def normalize_for_matching (text : Str) : Str :=
  let cleaned := text.map (fun c => if isWordChar c || pyIsSpace c then c else ' ')
  let cleaned := collapseWs cleaned
  pyLower (pyStrip cleaned)

-- ------------------------------------------------------------------
-- `_extract_page_number_from_text`
-- ------------------------------------------------------------------

/-- Anchored attempt of `page\s*=*\s*(\d+)` (IGNORECASE).  The three
character classes are pairwise disjoint, so greedy matching needs no
backtracking. -/
def matchPageEqAt (s : Str) : Option Nat :=
  if startsWithCI "page".data s then
    let r := (s.drop 4).dropWhile pyIsSpace
    let r := r.dropWhile (fun c => c = '=')
    let r := r.dropWhile pyIsSpace
    let ds := r.takeWhile Char.isDigit
    if ds.isEmpty then none else some (natOfDigits ds)
  else none

/-- Anchored attempt of `page\s+(\d+)` (IGNORECASE). -/
def matchPageSpAt (s : Str) : Option Nat :=
  if startsWithCI "page".data s then
    let r := s.drop 4
    let w := r.takeWhile pyIsSpace
    if w.isEmpty then none
    else
      let ds := (r.drop w.length).takeWhile Char.isDigit
      if ds.isEmpty then none else some (natOfDigits ds)
  else none

/-- Anchored attempt of `\bPAGE=(\d+)\b` (IGNORECASE); `p` is the
preceding character. -/
def matchPageBoundAt (p : Option Char) (s : Str) : Option Nat :=
  if isWordOpt p then none
  else if startsWithCI "page".data s then
    match s.drop 4 with
    | '=' :: r =>
        let ds := r.takeWhile Char.isDigit
        if ds.isEmpty then none
        else if headWord (r.drop ds.length) then none
        else some (natOfDigits ds)
    | _ => none
  else none

/-- `re.search` leftmost scan for an anchored attempt. -/
def scanFor (f : Str → Option Nat) : Str → Option Nat
  | [] => f []
  | s@(_ :: t) =>
      match f s with
      | some n => some n
      | none => scanFor f t

/-- Leftmost scan tracking the previous character (for `\b`). -/
def scanForB (f : Option Char → Str → Option Nat) : Option Char → Str → Option Nat
  | p, [] => f p []
  | p, s@(c :: t) =>
      match f p s with
      | some n => some n
      | none => scanForB f (some c) t

/-- `ContractExtractor._extract_page_number_from_text`. -/
def extract_page_number_from_text (text : Str) : Option Nat :=
  if text.isEmpty then none
  else
    match scanFor matchPageEqAt text with
    | some n => some n
    | none =>
        match scanFor matchPageSpAt text with
        | some n => some n
        | none => scanForB matchPageBoundAt none text

-- ------------------------------------------------------------------
-- `_sanitize_llm_answer`
-- ------------------------------------------------------------------

/-- `re.sub(r"^```(?:\w+)?\s*|\s*```$", "", t)`.  The two alternatives
touch disjoint ends of the string, so the substitution equals removing
the leading fence and then the trailing fence (`$` matches at the end
or just before a final newline). -/
def stripCodeFences (t : Str) : Str :=
  let t :=
    if "```".data.isPrefixOf t then
      ((t.drop 3).dropWhile isWordChar).dropWhile pyIsSpace
    else t
  if "```".data.isPrefixOf t.reverse then
    (((t.reverse).drop 3).dropWhile pyIsSpace).reverse
  else if t.reverse.head? = some '\n' && "```".data.isPrefixOf (t.reverse.drop 1) then
    ('\n' :: (((t.reverse).drop 4).dropWhile pyIsSpace)).reverse
  else t

def isBulletChar (c : Char) : Bool := c = '-' || c = '*' || c = '•'

/-- `re.sub(r"^\s*(?:[-*•]+\s*)?", "", t)`: one anchored (possibly
empty) match at position 0, greedy. -/
def stripBullets (t : Str) : Str :=
  let a := t.dropWhile pyIsSpace
  match a with
  | c :: _ => if isBulletChar c then (a.dropWhile isBulletChar).dropWhile pyIsSpace else a
  | [] => a

def isLabelChar (c : Char) : Bool := c.isAlpha || c = ' '

/-- The keyword alternation of the generic-label prefix regex, in its
source order. -/
def labelKeywords : List Str :=
  ["summary", "overview", "answer", "result", "extraction",
   "notice period", "termination notice period", "renewal terms"].map String.data

/-- Attempt of the `\s*(?:keyword)\s*:?-?\s*` tail of the label-prefix
regex at the front of `r`; returns the consumed length.  Each quantifier
is deterministic here because its character class is disjoint from what
must follow. -/
def labelTailLen (r : Str) : Option Nat :=
  let w2 := (r.takeWhile pyIsSpace).length
  let r2 := r.drop w2
  match labelKeywords.findSome? (fun kw =>
      if startsWithCI kw r2 then some kw.length else none) with
  | none => none
  | some klen =>
      let r3 := r2.drop klen
      let w3 := (r3.takeWhile pyIsSpace).length
      let r4 := r3.drop w3
      let (cl, r5) := if r4.head? = some ':' then (1, r4.drop 1) else (0, r4)
      let (dl, r6) := if r5.head? = some '-' then (1, r5.drop 1) else (0, r5)
      let w4 := (r6.takeWhile pyIsSpace).length
      some (w2 + klen + w3 + cl + dl + w4)

/-- `re.sub(r"^\s*(?:[A-Za-z ]{3,40})\s*(?:summary|...)\s*:?-?\s*", "",
t, IGNORECASE)`: anchored, so at most one match; Python backtracks the
leading `\s*` from longest to shortest and, within each, the
`{3,40}` repetition from longest to shortest. -/
def stripLabelPrefix (t : Str) : Str :=
  let wsMax := (t.takeWhile pyIsSpace).length
  let tryW := fun (w : Nat) =>
    let rest := t.drop w
    let run := (rest.takeWhile isLabelChar).length
    (descRange (min 40 run) 3).findSome? (fun n =>
      match labelTailLen (rest.drop n) with
      | some tl => some (w + n + tl)
      | none => none)
  match (descRange wsMax 0).findSome? tryW with
  | some total => t.drop total
  | none => t

/-- The scan for `re.match(r"(.+?[.!?])(?:\s|$)", t)`: the least `m ≥ 2`
with `t[m-1] ∈ .!?`, no newline among `t[0..m-2]` (lazy `.+?`), and a
whitespace or the end after it; returns the group length `m`. -/
def fsGo : Str → Nat → Option Nat
  | [], _ => none
  | c :: rest, idx =>
      if c = '\n' then none
      else if (c = '.' || c = '!' || c = '?') && idx + 1 ≥ 2 &&
          (match rest with | [] => true | r :: _ => pyIsSpace r) then
        some (idx + 1)
      else fsGo rest (idx + 1)

/-- The keep-only-the-first-sentence step of `_sanitize_llm_answer`. -/
def firstSentence (t : Str) : Str :=
  match fsGo t 0 with
  | some m => pyStrip (t.take m)
  | none => t

/-- Attempt of `^(?:effective|start|end|termination)\s+date\s*[:\-]\s*`
(IGNORECASE) at position 0; returns the consumed length. -/
def dateLabelLen (t : Str) : Option Nat :=
  (["effective", "start", "end", "termination"].map String.data).findSome? (fun w =>
    if startsWithCI w t then
      let r := t.drop w.length
      let w1 := (r.takeWhile pyIsSpace).length
      if w1 = 0 then none
      else
        let r2 := r.drop w1
        if startsWithCI "date".data r2 then
          let r3 := r2.drop 4
          let w2 := (r3.takeWhile pyIsSpace).length
          let r4 := r3.drop w2
          match r4.head? with
          | some c =>
              if c = ':' || c = '-' then
                some (w.length + w1 + 4 + w2 + 1 + ((r4.drop 1).takeWhile pyIsSpace).length)
              else none
          | none => none
        else none
    else none)

/-- `ContractExtractor._sanitize_llm_answer`. -/
def sanitize_llm_answer (answer : Str) (field : Str) : Option Str :=
  if answer.isEmpty then none
  else
    let t := pyStrip answer
    let t := stripCodeFences t
    let t := t.filter (fun c => !(c = '*' || c = '_' || c.toNat = 96))
    let t := stripBullets t
    let t := stripLabelPrefix t
    let t := pyStrip (collapseWs t)
    let t := if t.contains '\n' then pyStrip (t.takeWhile (fun c => c ≠ '\n')) else t
    let t := firstSentence t
    let t :=
      if field = "start_date".data || field = "end_date".data then
        match dateLabelLen t with
        | some n => t.drop n
        | none => t
      else t
    if t.isEmpty then none else some t

-- ------------------------------------------------------------------
-- `_is_uninformative_llm_answer`
-- ------------------------------------------------------------------

/-- The `generic_patterns` of `_is_uninformative_llm_answer`, matched
with `re.match(..., IGNORECASE)` (anchored, with a final `$`); the
spaces of the source patterns are literal. -/
def generic_patterns_re : List RE :=
  [ -- r"^(contract )?(renewal|termination notice period|notice period|end date|start date)s? (conditions|terms|details|information) (are )?(provided|specified|mentioned)$"
    RE.seqs [.opt (L "contract "),
      RE.alts [L "renewal", L "termination notice period", L "notice period",
               L "end date", L "start date"],
      .opt (L "s"), L " ",
      RE.alts [L "conditions", L "terms", L "details", L "information"],
      L " ", .opt (L "are "),
      RE.alts [L "provided", L "specified", L "mentioned"],
      .eol],
    -- r"^(as per (the )?contract|per (the )?agreement)$"
    RE.seqs [RE.alts [RE.seqs [L "as per ", .opt (L "the "), L "contract"],
                      RE.seqs [L "per ", .opt (L "the "), L "agreement"]],
      .eol],
    -- r"^(refer to (the )?(contract|agreement))$"
    RE.seqs [L "refer to ", .opt (L "the "),
      RE.alts [L "contract", L "agreement"], .eol] ]

/-- The temporal/notice vocabulary search of the
`termination_notice_period` branch (a bare capture-group alternation:
plain substring search). -/
def termination_vocab_re : RE :=
  RE.alts [L "day", L "days", L "week", L "weeks", L "month", L "months",
           L "year", L "years", L "immediate", L "upon", L "prior",
           L "written", L "notice", L "business day"]

/-- The renewal vocabulary search of the `renewal_terms` branch. -/
def renewal_vocab_re : RE :=
  RE.alts [L "renew", L "renewal", L "extend", L "auto", L "automatic",
           L "mutual", L "unless", L "notice", L "period", L "term",
           L "year", L "month", L "days"]

/-- `ContractExtractor._is_uninformative_llm_answer`. -/
def is_uninformative_llm_answer (text : Str) (field : Str) : Bool :=
  if text.isEmpty then true
  else
    let t := ((pyLower (pyStrip text)).reverse.dropWhile (fun c => c = '.')).reverse
    if t = "not specified".data || t = "no renewal terms specified".data ||
        t = "not found".data then false
    else if generic_patterns_re.any (fun p => RE.matchAt0 p t) then true
    else if field = "termination_notice_period".data &&
        !(RE.search termination_vocab_re t) then true
    else if field = "renewal_terms".data && !(RE.search renewal_vocab_re t) then true
    else false

-- ------------------------------------------------------------------
-- Data models (contract_extractor.py)
-- ------------------------------------------------------------------

inductive ExtractionSource where
  | Regex
  | SystemFallback
  | Inference
  | NoneSrc
deriving DecidableEq, Repr

/-- The `.value` strings of the `ExtractionSource` enum. -/
def ExtractionSource.valueStr : ExtractionSource → Str
  | .Regex => "Regex".data
  | .SystemFallback => "System Fallback".data
  | .Inference => "Inference".data
  | .NoneSrc => "None".data

/-- `ExtractionResult`.  The dataclass annotates `value: str`, but the
fallback path can pass `PatternConfig.fallback_text`, an
`Optional[str]`, so the field is modelled as optional. -/
structure ExtractionResult where
  value : Option Str
  source : ExtractionSource
  page_number : Option Nat
  reference_snippet : Option Str
deriving DecidableEq, Repr

/-- `PatternConfig` (loaded from YAML; the regex strings stay opaque). -/
structure PatternConfig where
  patterns : List String
  formatter : Option Str
  fallback_text : Option Str
  find_all : Bool
deriving Repr

structure PageText where
  page_number : Nat
  text : Str
deriving DecidableEq, Repr

structure ContextWindow where
  page_number : Nat
  text : Str
deriving DecidableEq, Repr

structure WindowConfig where
  min_sentences : Nat
  max_sentences : Nat
  max_chars_dense : Nat
  max_chars_sparse : Nat
deriving Repr

/-- `WindowConfig()` defaults. -/
def defaultWindowConfig : WindowConfig := ⟨2, 5, 1000, 6000⟩

/-- `SUPPORTED_KEYS`.  The source holds them in a Python `set`, whose
iteration order is interpreter-dependent; every per-key result is
independent of that interleaving (hits of different keys are regrouped
per key before any order-sensitive step), so a fixed listing order is
faithful. -/
def SUPPORTED_KEYS : List Str :=
  ["start_date", "end_date", "renewal_terms", "termination_notice_period"].map String.data

-- ------------------------------------------------------------------
-- `_find_page_number_for_value`
-- ------------------------------------------------------------------

/-- `ContractExtractor._find_page_number_for_value`. -/
def find_page_number_for_value (pages : List PageText) (value : Option Str) : Option Nat :=
  match value with
  | none => none
  | some v =>
    if v.isEmpty then none
    else
      let normalized_value := normalize_for_matching v
      if normalized_value.isEmpty then none
      else
        let normalized_pages := pages.map (fun p => (p.page_number, normalize_for_matching p.text))
        match normalized_pages.findSome? (fun pr =>
            if containsSub pr.2 normalized_value then some pr.1 else none) with
        | some n => some n
        | none =>
            let tokens := splitWs normalized_value
            (descRange (min tokens.length 6) 3).findSome? (fun len =>
              let snippet := joinSp (tokens.take len)
              if snippet.length < 4 then none
              else normalized_pages.findSome? (fun pr =>
                if containsSub pr.2 snippet then some pr.1 else none))

-- ------------------------------------------------------------------
-- `_slice_snippet_around_match` / `_build_reference_snippet`
-- ------------------------------------------------------------------

/-- The `start = max(0, idx - radius)` / `end = min(bound, idx + len +
radius)` slice of `_slice_snippet_around_match` with its call sites'
default `radius=180`, stripped; `bound` is the length of the text the
index was computed in. -/
def sliceAt (text : Str) (idx len bound : Nat) : Str :=
  pyStrip ((text.drop (idx - 180)).take (min bound (idx + len + 180) - (idx - 180)))

/-- The index search of the fuzzy branch: exact normalized containment,
then leading-token prefixes from `min(len(tokens), 6)` down to 2,
skipping prefixes shorter than 4 characters. -/
def fuzzyIdx (nt nv : Str) : Option Nat :=
  match strFind nt nv with
  | some i => some i
  | none =>
      (descRange (min (splitWs nv).length 6) 2).findSome? (fun len =>
        if (joinSp ((splitWs nv).take len)).length < 4 then none
        else strFind nt (joinSp ((splitWs nv).take len)))

/-- The `else` branch of `_slice_snippet_around_match`: look the value
up in the normalized text and slice the original text with the
normalized offsets. -/
def sliceFuzzyBranch (text value : Str) : Option Str :=
  if (normalize_for_matching value).isEmpty then none
  else
    match fuzzyIdx (normalize_for_matching text) (normalize_for_matching value) with
    | none => none
    | some idx =>
        some (sliceAt text idx (normalize_for_matching value).length
          (normalize_for_matching text).length)

/-- `ContractExtractor._slice_snippet_around_match`.
`re.search(re.escape(value[:500]), text, IGNORECASE|DOTALL)` is a
case-insensitive substring search for the escaped literal. -/
def slice_snippet_around_match (text value : Str) : Option Str :=
  if text.isEmpty || value.isEmpty then none
  else
    match strFindCI text (value.take 500) with
    | some idx => some (sliceAt text idx (value.take 500).length text.length)
    | none => sliceFuzzyBranch text value

/-- The source's `if snippet:` truthiness check: a snippet that strips
to the empty string counts as missing. -/
def nonEmptyOpt (s : Str) : Option Str :=
  if s.isEmpty then none else some s

/-- The page-scoped branch of `_build_reference_snippet` (look the page
up by number, slice its text, keep a truthy snippet).  Early returns
are `Option.bind` chains. -/
def pageSnippet (pages : List PageText) (v : Str) (page_number : Option Nat) :
    Option Str :=
  page_number.bind (fun n =>
    (pages.find? (fun p => p.page_number = n)).bind (fun page =>
      (slice_snippet_around_match page.text v).bind nonEmptyOpt))

/-- The fallback-text branch of `_build_reference_snippet`. -/
def fallbackSnippet (fallback_text : Option Str) (v : Str) : Option Str :=
  fallback_text.bind (fun fb =>
    if fb.isEmpty then none
    else (slice_snippet_around_match fb v).bind nonEmptyOpt)

/-- `ContractExtractor._build_reference_snippet`. -/
def build_reference_snippet (pages : List PageText) (value : Option Str)
    (page_number : Option Nat) (fallback_text : Option Str) : Option Str :=
  value.bind (fun v =>
    if v.isEmpty then none
    else
      match pageSnippet pages v page_number with
      | some s => some s
      | none => fallbackSnippet fallback_text v)

-- ------------------------------------------------------------------
-- `_process_llm_output` and the four `_get_*_with_llm` methods.
-- The Mistral client is the opaque collaborator: each getter receives
-- the completion it would have produced (`none` models missing
-- credentials, an SDK error, an unexpected exception, or an empty
-- `choices` list — every path that ends in `return None, None`).
-- ------------------------------------------------------------------

/-- `ContractExtractor._process_llm_output`. -/
def process_llm_output (pages : List PageText) (raw_output : Str) (field : Str) :
    Option Str × Option Nat :=
  if raw_output.isEmpty then (none, none)
  else
    let output := stripCodeFences (pyStrip raw_output)
    let parts :=
      match strFind output "|||".data with
      | some i => (pyStrip (output.take i), pyStrip (output.drop (i + 3)))
      | none => (output, ([] : Str))
    match sanitize_llm_answer parts.1 field with
    | none => (none, none)
    | some answer_value =>
        let page_number :=
          match extract_page_number_from_text parts.2 with
          | some n => some n
          | none =>
              match extract_page_number_from_text output with
              | some n => some n
              | none => find_page_number_for_value pages (some answer_value)
        (some answer_value, page_number)

/-- `ContractExtractor._get_start_date_with_llm`; `raw` is the stripped
completion text, `none` on any degraded path. -/
def get_start_date_with_llm (pages : List PageText) (raw : Option Str) :
    Option Str × Option Nat :=
  match raw with
  | none => (none, none)
  | some r => process_llm_output pages (pyStrip r) "start_date".data

/-- `ContractExtractor._get_end_date_with_llm`. -/
def get_end_date_with_llm (pages : List PageText) (raw : Option Str) :
    Option Str × Option Nat :=
  match raw with
  | none => (none, none)
  | some r => process_llm_output pages (pyStrip r) "end_date".data

/-- `ContractExtractor._get_renewal_terms_with_llm`, including its
uninformative-answer replacement. -/
def get_renewal_terms_with_llm (pages : List PageText) (raw : Option Str) :
    Option Str × Option Nat :=
  match raw with
  | none => (none, none)
  | some r =>
      let vp := process_llm_output pages (pyStrip r) "renewal_terms".data
      match vp.1 with
      | some v =>
          if !v.isEmpty && is_uninformative_llm_answer v "renewal_terms".data then
            (some "No renewal terms specified".data, none)
          else vp
      | none => vp

/-- `ContractExtractor._get_termination_notice_period_with_llm`,
including its uninformative-answer replacement. -/
def get_termination_notice_period_with_llm (pages : List PageText) (raw : Option Str) :
    Option Str × Option Nat :=
  match raw with
  | none => (none, none)
  | some r =>
      let vp := process_llm_output pages (pyStrip r) "termination_notice_period".data
      match vp.1 with
      | some v =>
          if !v.isEmpty && is_uninformative_llm_answer v "termination_notice_period".data then
            (some "Not specified".data, none)
          else vp
      | none => vp

-- ------------------------------------------------------------------
-- `_generate_context_windows_for_text` (the Segmenter)
-- ------------------------------------------------------------------

/-- The `(?:\.\d+)*` tail of the heading number: consume `.digits`
groups greedily (all quantifiers here have pairwise disjoint character
classes against what follows, so greedy matching is deterministic).
Structural recursion on a fuel that bounds the iteration count — every
iteration consumes at least two characters, so `s.length` always
suffices and the fuel case is never the exit. -/
def dotNumTailF : Nat → Str → Str
  | 0, s => s
  | fuel + 1, s =>
      match s with
      | '.' :: rest =>
          let ds := rest.takeWhile Char.isDigit
          if ds.isEmpty then '.' :: rest
          else dotNumTailF fuel (rest.drop ds.length)
      | t => t

def dotNumTail (s : Str) : Str := dotNumTailF s.length s

/-- `HEADING_RE.match(line)` as a boolean:
`^\s*(?:\d+(?:\.\d+)*|Article|Section|Clause)\s+[A-Z][^\n]*$` with
IGNORECASE and MULTILINE.  The trailing `[^\n]*$` always succeeds (it
stops at the first newline or the end), so only the prefix matters;
`[A-Z]` under IGNORECASE accepts any ASCII letter. -/
def headingMatch (line : Str) : Bool :=
  let r := line.dropWhile pyIsSpace
  let checkTail : Str → Bool := fun t =>
    let w := t.takeWhile pyIsSpace
    if w.isEmpty then false
    else
      match t.drop w.length with
      | c :: _ => c.isAlpha
      | [] => false
  let numBranch :=
    let ds := r.takeWhile Char.isDigit
    if ds.isEmpty then false else checkTail (dotNumTail (r.drop ds.length))
  let kwBranch :=
    if startsWithCI "article".data r then checkTail (r.drop 7)
    else if startsWithCI "section".data r then checkTail (r.drop 7)
    else if startsWithCI "clause".data r then checkTail (r.drop 6)
    else false
  numBranch || kwBranch

/-- `text.splitlines(keepends=True)` restricted to `\n` line ends (the
only terminator the extractor's own preprocessing produces). -/
def splitLinesKeepAux : Str → Str → List Str
  | acc, [] => if acc.isEmpty then [] else [acc.reverse]
  | acc, c :: t =>
      if c = '\n' then (c :: acc).reverse :: splitLinesKeepAux [] t
      else splitLinesKeepAux (c :: acc) t

def splitLinesKeep (s : Str) : List Str := splitLinesKeepAux [] s

/-- The heading/paragraph pairing loop of
`_generate_context_windows_for_text` (steps 1: `flush_para` and the
line scan), carrying `current_heading` and the paragraph buffer. -/
def buildSegmentsAux : Str → Str → List Str → List (Str × Str)
  | heading, buffer, [] =>
      let para := pyStrip buffer
      if para.isEmpty then [] else [(heading, para)]
  | heading, buffer, line :: rest =>
      if headingMatch line then
        let para := pyStrip buffer
        let segs := buildSegmentsAux (pyStrip line) [] rest
        if para.isEmpty then segs else (heading, para) :: segs
      else buildSegmentsAux heading (buffer ++ line) rest

/-- The inner greedy packing loop: extend `sub` while the candidate
(`sub + " " + sentence`, or the sentence itself when `sub` is empty)
stays within `dense`. -/
def packLoop (dense : Nat) : Str → List Str → Str × List Str
  | sub, [] => (sub, [])
  | sub, sent :: rest =>
      let cand := if sub.isEmpty then sent else sub ++ [' '] ++ sent
      if cand.length ≤ dense then packLoop dense cand rest else (sub, sent :: rest)

theorem packLoop_snd_length_le (dense : Nat) (sub : Str) (l : List Str) :
    ((packLoop dense sub l).2).length ≤ l.length := by
  induction l generalizing sub with
  | nil => simp [packLoop]
  | cons sent rest ih =>
      simp only [packLoop]
      by_cases h : (if sub.isEmpty then sent else sub ++ [' '] ++ sent).length ≤ dense
      · simp only [if_pos h]
        exact le_trans (ih _) (by simp)
      · simp only [if_neg h]
        exact le_refl _

theorem packLoop_progress (dense : Nat) (l : List Str)
    (h : (packLoop dense [] l).1 ≠ []) :
    ((packLoop dense [] l).2).length < l.length := by
  cases l with
  | nil => exact absurd rfl h
  | cons s t =>
      have hunf : packLoop dense [] (s :: t) =
          if s.length ≤ dense then packLoop dense s t else ([], s :: t) := rfl
      rw [hunf] at h ⊢
      by_cases hle : s.length ≤ dense
      · rw [if_pos hle]
        exact Nat.lt_succ_of_le (packLoop_snd_length_le dense s t)
      · rw [if_neg hle] at h
        exact absurd rfl h

/-- The outer `while idx < len(sentences)` loop: emit the packed group,
or hard-slice the current sentence to `dense` characters when even it
alone does not fit. -/
def emitLoopF (dense : Nat) : Nat → List Str → List Str
  | 0, _ => []
  | fuel + 1, l =>
      match l with
      | [] => []
      | s0 :: rest0 =>
          let pr := packLoop dense [] (s0 :: rest0)
          if pr.1.isEmpty then (s0.take dense) :: emitLoopF dense fuel rest0
          else pr.1 :: emitLoopF dense fuel pr.2

/-- Fuel `l.length` always suffices: each outer iteration consumes at
least one sentence (`packLoop_progress` for the packed branch, one
sentence for the emergency hard slice), so `emitLoopF` computes the
unbounded `while` loop of the source. -/
def emitLoop (dense : Nat) (l : List Str) : List Str := emitLoopF dense l.length l

/-- Step 2 of `_generate_context_windows_for_text` for one
`(heading, paragraph)` segment; `sents` is the opaque spaCy
sentencizer (`doc.sents` texts). -/
def windowsForSegment (sents : Str → List Str) (cfg : WindowConfig)
    (heading para : Str) : List Str :=
  let chunk := if heading.isEmpty then para else heading ++ "\n\n".data ++ para
  if chunk.length ≤ cfg.max_chars_sparse then [chunk]
  else
    let pre : List Str := if heading.isEmpty then [] else [heading]
    let chunk := if heading.isEmpty then chunk else para
    let sentences := ((sents chunk).map pyStrip).filter (fun s => !s.isEmpty)
    pre ++ emitLoop cfg.max_chars_dense sentences

/-- `ContractExtractor._generate_context_windows_for_text`. -/
def generate_context_windows_for_text (sents : Str → List Str)
    (text : Str) (cfg : WindowConfig) : List Str :=
  (buildSegmentsAux [] [] (splitLinesKeep text)).flatMap
    (fun seg => windowsForSegment sents cfg seg.1 seg.2)

/-- `ContractExtractor._generate_context_windows` (blank windows are
skipped). -/
def generate_context_windows (sents : Str → List Str)
    (pages : List PageText) (cfg : WindowConfig) : List ContextWindow :=
  pages.flatMap (fun page =>
    ((generate_context_windows_for_text sents page.text cfg).filter
        (fun w => !(pyStrip w).isEmpty)).map
      (fun w => ⟨page.page_number, w⟩))

/-- `ContractExtractor._preprocess_contract`'s
`re.sub(r"\s*\n\s*", "\n", text)`: every maximal whitespace run that
contains a newline collapses to a single newline; runs without one are
untouched. -/
def preSubAuxF : Nat → Str → Str
  | 0, s => s
  | fuel + 1, s =>
      match s with
      | [] => []
      | c :: t =>
          if pyIsSpace c then
            let run := c :: t.takeWhile pyIsSpace
            let rest := t.drop (t.takeWhile pyIsSpace).length
            if run.contains '\n' then '\n' :: preSubAuxF fuel rest
            else run ++ preSubAuxF fuel rest
          else c :: preSubAuxF fuel t

/-- Fuel `s.length` always suffices: each step consumes at least one
character. -/
def preSubAux (s : Str) : Str := preSubAuxF s.length s

/-- `ContractExtractor._preprocess_contract`. -/
def preprocess_contract (text : Str) : Str := pyStrip (preSubAux text)

-- ------------------------------------------------------------------
-- Python string ordering (for `sorted(set(...))` in `_apply_pattern_config`)
-- ------------------------------------------------------------------

/-- Python `str <`: lexicographic by code point. -/
def strLt : Str → Str → Bool
  | [], [] => false
  | [], _ :: _ => true
  | _ :: _, [] => false
  | a :: as, b :: bs => if a < b then true else if b < a then false else strLt as bs

def strLeP (a b : Str) : Prop := strLt b a = false

instance : DecidableRel strLeP :=
  fun a b => inferInstanceAs (Decidable (strLt b a = false))

theorem strLt_irrefl (a : Str) : strLt a a = false := by
  induction a with
  | nil => rfl
  | cons c cs ih => simp [strLt, ih]

theorem strLt_trans : ∀ {a b c : Str},
    strLt a b = true → strLt b c = true → strLt a c = true
  | [], [], _, h1, _ => by simp [strLt] at h1
  | [], _ :: _, [], _, h2 => by simp [strLt] at h2
  | [], _ :: _, _ :: _, _, _ => rfl
  | _ :: _, [], _, h1, _ => by simp [strLt] at h1
  | _ :: _, _ :: _, [], _, h2 => by simp [strLt] at h2
  | a :: as, b :: bs, c :: cs, h1, h2 => by
      simp only [strLt] at h1 h2 ⊢
      rcases lt_trichotomy a b with hab | hab | hab
      · rcases lt_trichotomy b c with hbc | hbc | hbc
        · simp [lt_trans hab hbc]
        · subst hbc; simp [hab]
        · exfalso; simp [not_lt_of_gt hbc, hbc] at h2
      · subst hab
        rcases lt_trichotomy a c with hac | hac | hac
        · simp [hac]
        · subst hac
          simp [lt_irrefl] at h1 h2 ⊢
          exact strLt_trans h1 h2
        · exfalso; simp [not_lt_of_gt hac, hac] at h2
      · exfalso; simp [not_lt_of_gt hab, hab] at h1

theorem strLt_connex : ∀ {a b : Str},
    strLt a b = false → a ≠ b → strLt b a = true
  | [], [], _, hne => absurd rfl hne
  | [], _ :: _, h, _ => by simp [strLt] at h
  | _ :: _, [], _, _ => rfl
  | a :: as, b :: bs, h, hne => by
      simp only [strLt] at h ⊢
      rcases lt_trichotomy a b with hab | hab | hab
      · simp [hab] at h
      · subst hab
        simp [lt_irrefl] at h ⊢
        refine strLt_connex h ?_
        intro hc; exact hne (by rw [hc])
      · simp [hab, not_lt_of_gt hab]

instance : IsTrans Str strLeP where
  trans := by
    intro a b c h1 h2
    unfold strLeP at h1 h2 ⊢
    by_cases hca : strLt c a = true
    · by_cases hab : a = b
      · subst hab; exact absurd hca (by simp [h2])
      · have hab' : strLt a b = true := strLt_connex h1 (fun hc => hab hc.symm)
        have hcb : strLt c b = true := strLt_trans hca hab'
        rw [hcb] at h2; cases h2
    · simpa using hca

instance : IsTotal Str strLeP where
  total := by
    intro a b
    unfold strLeP
    by_cases h1 : strLt b a = true
    · right
      by_cases h2 : strLt a b = true
      · have hirr := strLt_trans h1 h2
        rw [strLt_irrefl] at hirr; cases hirr
      · simpa using h2
    · left; simpa using h1

/-- Python `sorted(set(l))`: the unique ascending enumeration of the
distinct elements of `l`. -/
def sortedDedup (l : List Str) : List Str :=
  List.insertionSort strLeP l.dedup

theorem sortedDedup_sorted (l : List Str) : (sortedDedup l).Sorted strLeP :=
  List.sorted_insertionSort strLeP l.dedup

theorem sortedDedup_nodup (l : List Str) : (sortedDedup l).Nodup :=
  ((List.perm_insertionSort strLeP l.dedup).nodup_iff).mpr (List.nodup_dedup l)

theorem sortedDedup_mem (l : List Str) (s : Str) :
    s ∈ sortedDedup l ↔ s ∈ l := by
  unfold sortedDedup
  rw [(List.perm_insertionSort strLeP l.dedup).mem_iff]
  exact List.mem_dedup

-- ------------------------------------------------------------------
-- `_apply_pattern_config` / `_extract_with_patterns`.
-- The regex strings come from YAML configuration, which §6 treats as
-- an external contract, so Python's `re` over those strings is an
-- oracle: `findall`/`search` return `Except.error ()` for a malformed
-- pattern (`re.error`).
-- ------------------------------------------------------------------

/-- One element of a `re.findall` result: a plain string (pattern with
at most one group) or a tuple of group strings (non-participating
groups are empty strings, which `filter(None, ...)` drops either way). -/
inductive FindallItem where
  | str (s : Str)
  | tup (gs : List Str)

/-- A `re.search` match: `group(0)` and `groups()`. -/
structure PyMatch where
  whole : Str
  groups : List Str

structure RegexEngine where
  findall : String → Str → Except Unit (List FindallItem)
  search : String → Str → Except Unit (Option PyMatch)

/-- `"".join(filter(None, parts))`. -/
def joinNonEmpty (gs : List Str) : Str :=
  (gs.filter (fun g => !g.isEmpty)).flatten

/-- The trimmed text a `findall` item contributes (`match if
isinstance(match, str) else "".join(filter(None, match))`, stripped);
empty results are not collected. -/
def findallItemText (it : FindallItem) : Option Str :=
  let mt := match it with
    | .str s => s
    | .tup gs => joinNonEmpty gs
  let mt := pyStrip mt
  if mt.isEmpty then none else some mt

/-- The `find_all` accumulation loop of `_apply_pattern_config`: every
pattern contributes its non-empty trimmed matches in order; a pattern
whose evaluation raises `re.error` is skipped. -/
def collectFindall (eng : RegexEngine) (text : Str) : List String → List Str
  | [] => []
  | p :: ps =>
      match eng.findall p text with
      | .error _ => collectFindall eng text ps
      | .ok items => items.filterMap findallItemText ++ collectFindall eng text ps

/-- The non-`find_all` loop of `_apply_pattern_config`: return on the
first pattern that matches; `re.error` skips the pattern. -/
def searchFirst (eng : RegexEngine) (text : Str) : List String → Option Str
  | [] => none
  | p :: ps =>
      match eng.search p text with
      | .error _ => searchFirst eng text ps
      | .ok none => searchFirst eng text ps
      | .ok (some m) =>
          let value := if m.groups.isEmpty then pyStrip m.whole
                       else pyStrip (joinNonEmpty m.groups)
          some (pyStrip (value.map (fun c => if c = '\n' then ' ' else c)))

/-- `ContractExtractor._apply_pattern_config`. -/
def apply_pattern_config (eng : RegexEngine) (text : Str) (config : PatternConfig) :
    Option Str :=
  if config.find_all then
    let matches_found := collectFindall eng text config.patterns
    if matches_found.isEmpty then none
    else some (List.intercalate " | ".data (sortedDedup matches_found))
  else searchFirst eng text config.patterns

/-- `ContractExtractor._extract_with_patterns` (an extraction whose
value is falsy — `None` or the empty string — is dropped). -/
def extract_with_patterns (eng : RegexEngine) (patterns : Str → Option PatternConfig)
    (text : Str) : List (Str × Str) :=
  SUPPORTED_KEYS.filterMap (fun key =>
    match patterns key with
    | none => none
    | some cfg =>
        match apply_pattern_config eng text cfg with
        | some v => if v.isEmpty then none else some (key, v)
        | none => none)

-- ------------------------------------------------------------------
-- `_merge_window_results`
-- ------------------------------------------------------------------

/-- One gathered hit: `(key, value, page_number, window_text)`. -/
abbrev Hit := Str × Str × Option Nat × Str

/-- Python `max(entries, key=lambda item: len(item[0]))` starting from
head `x`: keeps the current entry unless a later one is strictly
longer, hence returns the first entry of maximal value length. -/
def pyMaxByLen (x : Str × Option Nat × Str) (l : List (Str × Option Nat × Str)) :
    Str × Option Nat × Str :=
  l.foldl (fun acc y => if y.1.length > acc.1.length then y else acc) x

/-- The keys of `grouped`, in first-hit order (`defaultdict` insertion
order). -/
def groupedKeys (hits : List Hit) : List Str :=
  (hits.map (fun h => h.1)).dedup

/-- `grouped[key]`: this key's `(val, page_num, context_text)` entries
in hit order. -/
def groupEntries (hits : List Hit) (key : Str) : List (Str × Option Nat × Str) :=
  hits.filterMap (fun h => if h.1 = key then some h.2 else none)

/-- Python-dict state: an association list with dict-assignment update
semantics.  The dicts built here never contain a key twice, so
replacing the first matching binding (keeping its position) and
appending when absent is exactly Python's ordered-dict assignment. -/
abbrev RDict := List (Str × ExtractionResult)

def dictGet : RDict → Str → Option ExtractionResult
  | [], _ => none
  | kv :: rest, k => if kv.1 = k then some kv.2 else dictGet rest k

def dictSet : RDict → Str → ExtractionResult → RDict
  | [], k, v => [(k, v)]
  | kv :: rest, k, v =>
      if kv.1 = k then (k, v) :: rest else kv :: dictSet rest k v

/-- The merged Regex result for one key of `_merge_window_results`,
given its non-empty entry list `e :: es`. -/
def mergedResultFor (pages : List PageText) (e : Str × Option Nat × Str)
    (es : List (Str × Option Nat × Str)) : ExtractionResult :=
  let best := pyMaxByLen e es
  ⟨some best.1, .Regex, best.2.1,
    build_reference_snippet pages (some best.1) best.2.1 (some best.2.2)⟩

/-- The merged entry a key receives when it has at least one hit. -/
def mergedOpt (pages : List PageText) (hits : List Hit) (key : Str) :
    Option ExtractionResult :=
  match groupEntries hits key with
  | [] => none
  | e :: es => some (mergedResultFor pages e es)

/-- The `ExtractionResult(fallback_text, SYSTEM_FALLBACK)` a key
receives when it never matched (`cfg.fallback_text if cfg else
"Not Found"`). -/
def fallbackResult (patterns : Str → Option PatternConfig) (key : Str) :
    ExtractionResult :=
  ⟨(match patterns key with
    | some cfg => cfg.fallback_text
    | none => some "Not Found".data), .SystemFallback, none, none⟩

/-- `ContractExtractor._merge_window_results`. -/
def merge_window_results (patterns : Str → Option PatternConfig)
    (pages : List PageText) (hits : List Hit) : RDict :=
  let merged : RDict := (groupedKeys hits).filterMap
    (fun key => (mergedOpt pages hits key).map (fun r => (key, r)))
  SUPPORTED_KEYS.foldl (fun m key =>
    if (dictGet m key).isSome then m
    else dictSet m key (fallbackResult patterns key)) merged

-- ------------------------------------------------------------------
-- `_extract_contract_basics` (the Orchestrator) and `extract_from_pdf`
-- ------------------------------------------------------------------

/-- The four Mistral completions of one document run, each already
stripped (`.strip()` on `message.content`); `none` models every
degraded path of a getter (missing API key, SDK error, unexpected
exception, empty `choices`). -/
structure LlmRaws where
  rawStart : Option Str
  rawEnd : Option Str
  rawRenewal : Option Str
  rawTermination : Option Str

/-- `preprocessed_pages` of `_extract_contract_basics`. -/
def preprocessPages (pages : List PageText) : List PageText :=
  pages.map (fun page => ⟨page.page_number, preprocess_contract page.text⟩)

/-- The `all_hits` gathering loop of `_extract_contract_basics`: run
pattern extraction per generated window, tagging each hit with the
window's page and text. -/
def all_hits (eng : RegexEngine) (patterns : Str → Option PatternConfig)
    (sents : Str → List Str) (preprocessed : List PageText) : List Hit :=
  (generate_context_windows sents preprocessed defaultWindowConfig).flatMap (fun w =>
    (extract_with_patterns eng patterns w.text).map
      (fun kv => (kv.1, kv.2, some w.page_number, w.text)))

/-- The `ExtractionResult` an accepted model answer contributes. -/
def inferenceResult (pages : List PageText) (v : Str) (page : Option Nat) :
    ExtractionResult :=
  ⟨some v, .Inference, page, build_reference_snippet pages (some v) page none⟩

/-- One `if llm_x [and llm_x != "Not Found"]: final_data[x] = ...`
block of `_extract_contract_basics`.  `checkNF` is true for the three
fields whose guard compares against the literal "Not Found"; the
`termination_notice_period` block omits that comparison. -/
def overrideFor (pages : List PageText) (key : Str) (checkNF : Bool)
    (lv : Option Str × Option Nat) (d : RDict) : RDict :=
  match lv.1 with
  | some v =>
      if !v.isEmpty && (!checkNF || v ≠ "Not Found".data) then
        dictSet d key (inferenceResult pages v lv.2)
      else d
  | none => d

/-- The LLM-prioritisation block of `_extract_contract_basics`, in its
source order (start, end, renewal, termination). -/
def prioritizeLlm (pages : List PageText) (final_data : RDict)
    (llmS llmE llmR llmT : Option Str × Option Nat) : RDict :=
  overrideFor pages "termination_notice_period".data false llmT
    (overrideFor pages "renewal_terms".data true llmR
      (overrideFor pages "end_date".data true llmE
        (overrideFor pages "start_date".data true llmS final_data)))

/-- The `analysis` assembly loop of `_extract_contract_basics`: one
entry per supported key, with the literal "Not Found" system fallback
when the key is absent from `final_data`. -/
def buildAnalysis (final_data : RDict) : RDict :=
  SUPPORTED_KEYS.map (fun key =>
    (key, match dictGet final_data key with
          | some result => result
          | none => ⟨some "Not Found".data, .SystemFallback, none, none⟩))

/-- The per-field core of `_extract_contract_basics` (everything that
feeds the `analysis` mapping). -/
def extract_analysis (eng : RegexEngine) (patterns : Str → Option PatternConfig)
    (sents : Str → List Str) (raws : LlmRaws) (pages : List PageText) : RDict :=
  let preprocessed := preprocessPages pages
  let llmS := get_start_date_with_llm preprocessed raws.rawStart
  let llmE := get_end_date_with_llm preprocessed raws.rawEnd
  let llmR := get_renewal_terms_with_llm preprocessed raws.rawRenewal
  let llmT := get_termination_notice_period_with_llm preprocessed raws.rawTermination
  let hits := all_hits eng patterns sents preprocessed
  let final_data := merge_window_results patterns pages hits
  buildAnalysis (prioritizeLlm pages final_data llmS llmE llmR llmT)

/-- JSON-like values for the output record. -/
inductive JVal where
  | s (v : Str)
  | n (v : Nat)
  | null
  | dict (entries : List (Str × JVal))

abbrev JDict := List (Str × JVal)

def jdictGet : JDict → Str → Option JVal
  | [], _ => none
  | kv :: rest, k => if kv.1 = k then some kv.2 else jdictGet rest k

def jdictSet : JDict → Str → JVal → JDict
  | [], k, v => [(k, v)]
  | kv :: rest, k, v =>
      if kv.1 = k then (k, v) :: rest else kv :: jdictSet rest k v

/-- `ExtractionResult.to_dict`. -/
def ExtractionResult.to_dict (r : ExtractionResult) : JVal :=
  .dict [("value".data, match r.value with | some v => .s v | none => .null),
         ("source".data, .s r.source.valueStr),
         ("page_number".data, match r.page_number with | some n => .n n | none => .null),
         ("reference_snippet".data,
            match r.reference_snippet with | some v => .s v | none => .null)]

/-- `ContractExtractor._extract_contract_basics`.  `timestamp` stands
for `datetime.now().isoformat()`.  The embedded functions are total, so
the source's final catch-all `except` branch is unreachable. -/
def extract_contract_basics (eng : RegexEngine) (patterns : Str → Option PatternConfig)
    (sents : Str → List Str) (raws : LlmRaws) (timestamp : Str)
    (pages : List PageText) : JDict :=
  if pages.all (fun page => (pyStrip page.text).isEmpty) then
    [("error".data, .s "Empty contract text provided.".data)]
  else
    let preprocessed := preprocessPages pages
    let raw_text := List.intercalate "\n".data (preprocessed.map (fun p => p.text))
    let analysis := extract_analysis eng patterns sents raws pages
    [("extraction_timestamp".data, .s timestamp),
     ("contract_type".data, .s "General Agreement".data),
     ("contract_length".data, .n raw_text.length),
     ("analysis".data, .dict (analysis.map (fun kv => (kv.1, kv.2.to_dict))))]

/-- The opaque document-loader boundary of `extract_from_pdf`:
`fitz.open` + per-page text extraction either reports encryption,
raises (any corrupt-file error, message `msg`), or yields the per-page
texts in order. -/
inductive PdfOutcome where
  | encrypted
  | openError (msg : Str)
  | ok (texts : List Str)

/-- `ContractExtractor._extract_text_from_pdf`: pages are numbered from
1 in reading order. -/
def extract_text_from_pdf (texts : List Str) : List PageText :=
  texts.enum.map (fun it => ⟨it.1 + 1, it.2⟩)

/-- The body of `extract_from_pdf` (inside the profiler decorator). -/
def extract_from_pdf_core (eng : RegexEngine) (patterns : Str → Option PatternConfig)
    (sents : Str → List Str) (raws : LlmRaws) (timestamp : Str)
    (outcome : PdfOutcome) : JDict :=
  match outcome with
  | .encrypted => [("error".data, .s "PDF is encrypted and cannot be processed.".data)]
  | .openError msg =>
      [("error".data,
        .s ("Failed to read PDF. The file may be corrupted or in an unsupported format: ".data
             ++ msg))]
  | .ok texts =>
      let page_texts := extract_text_from_pdf texts
      let page_count := page_texts.length
      if page_texts.all (fun page => (pyStrip page.text).isEmpty) then
        [("error".data, .s "No readable text found in the PDF.".data)]
      else
        let results := extract_contract_basics eng patterns sents raws timestamp page_texts
        jdictSet results "pages_analysed".data (.n page_count)

/-- The `performance_profiler` decorator: on every exit the measured
strings are merged into the result dict under `performance_metrics`
(`setdefault` then `update`; the extractor never pre-sets that key). -/
def performance_profiler_wrap (result : JDict) (exec_time mem : Str) : JDict :=
  let pm := match jdictGet result "performance_metrics".data with
    | some (.dict entries) => entries
    | _ => []
  let pm := jdictSet pm "execution_time_seconds".data (.s exec_time)
  let pm := jdictSet pm "peak_memory_usage_mb".data (.s mem)
  jdictSet result "performance_metrics".data (.dict pm)

/-- `ContractExtractor.extract_from_pdf` (profiled).  `exec_time` and
`mem` stand for the measured strings. -/
def extract_from_pdf (eng : RegexEngine) (patterns : Str → Option PatternConfig)
    (sents : Str → List Str) (raws : LlmRaws) (timestamp : Str)
    (exec_time mem : Str) (outcome : PdfOutcome) : JDict :=
  performance_profiler_wrap
    (extract_from_pdf_core eng patterns sents raws timestamp outcome) exec_time mem

-- ------------------------------------------------------------------
-- Dictionary lemmas
-- ------------------------------------------------------------------

theorem dictGet_dictSet_self (d : RDict) (k : Str) (v : ExtractionResult) :
    dictGet (dictSet d k v) k = some v := by
  induction d with
  | nil => simp [dictSet, dictGet]
  | cons kv rest ih =>
      by_cases h : kv.1 = k
      · simp [dictSet, dictGet, h]
      · simp [dictSet, dictGet, h, ih]

theorem dictGet_dictSet_ne (d : RDict) (k k' : Str) (v : ExtractionResult)
    (h : k' ≠ k) : dictGet (dictSet d k v) k' = dictGet d k' := by
  have hkk : ¬ ((k : Str) = k') := fun hc => h hc.symm
  induction d with
  | nil => simp [dictSet, dictGet, hkk]
  | cons kv rest ih =>
      by_cases h0 : kv.1 = k
      · by_cases h0' : kv.1 = k'
        · exact absurd (h0.symm.trans h0').symm h
        · simp [dictSet, dictGet, h0, h0', hkk]
      · by_cases h0' : kv.1 = k'
        · simp [dictSet, dictGet, h0, h0', h]
        · simp [dictSet, dictGet, h0, h0', ih]

theorem jdictGet_jdictSet_self (d : JDict) (k : Str) (v : JVal) :
    jdictGet (jdictSet d k v) k = some v := by
  induction d with
  | nil => simp [jdictSet, jdictGet]
  | cons kv rest ih =>
      by_cases h : kv.1 = k
      · simp [jdictSet, jdictGet, h]
      · simp [jdictSet, jdictGet, h, ih]

-- ------------------------------------------------------------------
-- Merge / override / analysis lookup lemmas
-- ------------------------------------------------------------------

theorem groupedKeys_nodup (hits : List Hit) : (groupedKeys hits).Nodup :=
  List.nodup_dedup _

theorem groupEntries_eq_nil_iff (hits : List Hit) (f : Str) :
    groupEntries hits f = [] ↔ ∀ h ∈ hits, h.1 ≠ f := by
  unfold groupEntries
  rw [List.filterMap_eq_nil_iff]
  constructor
  · intro hall h hmem hne
    have := hall h hmem
    rw [if_pos hne] at this
    cases this
  · intro hall h hmem
    rw [if_neg (hall h hmem)]

theorem mem_groupedKeys_iff (hits : List Hit) (f : Str) :
    f ∈ groupedKeys hits ↔ groupEntries hits f ≠ [] := by
  unfold groupedKeys
  rw [List.mem_dedup, List.mem_map]
  rw [Ne, groupEntries_eq_nil_iff]
  constructor
  · rintro ⟨h, hmem, hfst⟩ hall
    exact hall h hmem hfst
  · intro hnall
    push_neg at hnall
    obtain ⟨h, hmem, hfst⟩ := hnall
    exact ⟨h, hmem, hfst⟩

theorem dictGet_filterMap_assoc (l : List Str) (G : Str → Option ExtractionResult)
    (f : Str) (hnd : l.Nodup) :
    dictGet (l.filterMap (fun k => (G k).map (fun r => (k, r)))) f =
      if f ∈ l then G f else none := by
  induction l with
  | nil => simp [dictGet]
  | cons k ks ih =>
      have hnd' : ks.Nodup := (List.nodup_cons.mp hnd).2
      have hknotin : k ∉ ks := (List.nodup_cons.mp hnd).1
      cases hGk : G k with
      | none =>
          rw [List.filterMap_cons_none (by simp [hGk])]
          rw [ih hnd']
          by_cases hf : f = k
          · subst hf
            simp [hknotin, hGk]
          · simp [hf, List.mem_cons]
      | some r =>
          rw [List.filterMap_cons_some (b := (k, r)) (by simp [hGk])]
          by_cases hf : f = k
          · subst hf
            simp [dictGet, hGk]
          · have hkf : ¬ ((k : Str) = f) := fun hc => hf hc.symm
            simp only [dictGet, hkf, if_neg, if_false]
            rw [ih hnd']
            simp [hf, List.mem_cons]

theorem dictGet_merged_part (pages : List PageText) (hits : List Hit) (f : Str) :
    dictGet ((groupedKeys hits).filterMap
        (fun key => (mergedOpt pages hits key).map (fun r => (key, r)))) f =
      mergedOpt pages hits f := by
  rw [dictGet_filterMap_assoc _ _ _ (groupedKeys_nodup hits)]
  by_cases hmem : f ∈ groupedKeys hits
  · rw [if_pos hmem]
  · rw [if_neg hmem]
    have : groupEntries hits f = [] := by
      by_contra hne
      exact hmem ((mem_groupedKeys_iff hits f).mpr hne)
    unfold mergedOpt
    rw [this]

theorem dictGet_fallback_fold (patterns : Str → Option PatternConfig)
    (keys : List Str) (m : RDict) (f : Str) :
    dictGet (keys.foldl (fun m key =>
        if (dictGet m key).isSome then m
        else dictSet m key (fallbackResult patterns key)) m) f =
      match dictGet m f with
      | some r => some r
      | none => if f ∈ keys then some (fallbackResult patterns f) else none := by
  induction keys generalizing m with
  | nil => cases hm : dictGet m f <;> simp [hm]
  | cons k ks ih =>
      simp only [List.foldl_cons]
      by_cases hf : f = k
      · subst hf
        cases hm : dictGet m f with
        | some r => simp only [hm, Option.isSome_some, if_pos]
                    rw [ih m]
                    simp [hm]
        | none =>
            simp only [hm, Option.isSome_none, Bool.false_eq_true, if_false]
            rw [ih _]
            rw [dictGet_dictSet_self]
            simp [hm]
      · have hstep : dictGet (if (dictGet m k).isSome then m
            else dictSet m k (fallbackResult patterns k)) f = dictGet m f := by
          by_cases hm : (dictGet m k).isSome
          · rw [if_pos hm]
          · rw [if_neg hm, dictGet_dictSet_ne _ _ _ _ hf]
        by_cases hm : (dictGet m k).isSome
        · rw [if_pos hm, ih m]
          cases hmf : dictGet m f <;> simp [hmf, hf, List.mem_cons]
        · rw [if_neg hm, ih _]
          rw [dictGet_dictSet_ne _ _ _ _ hf]
          cases hmf : dictGet m f <;> simp [hmf, hf, List.mem_cons]

/-- Lookup in `_merge_window_results`: a supported key maps to its
merged Regex entry when it had a hit, else to the configured fallback. -/
theorem dictGet_merge (patterns : Str → Option PatternConfig) (pages : List PageText)
    (hits : List Hit) (f : Str) (hf : f ∈ SUPPORTED_KEYS) :
    dictGet (merge_window_results patterns pages hits) f =
      some (match mergedOpt pages hits f with
            | some r => r
            | none => fallbackResult patterns f) := by
  unfold merge_window_results
  rw [dictGet_fallback_fold]
  rw [dictGet_merged_part]
  cases hmo : mergedOpt pages hits f with
  | some r => simp
  | none => simp [hf]

theorem dictGet_overrideFor_ne (pages : List PageText) (key : Str) (b : Bool)
    (lv : Option Str × Option Nat) (d : RDict) (k' : Str) (h : k' ≠ key) :
    dictGet (overrideFor pages key b lv d) k' = dictGet d k' := by
  unfold overrideFor
  cases lv.1 with
  | none => rfl
  | some v =>
      show dictGet (if !v.isEmpty && (!b || decide (v ≠ "Not Found".data)) then
          dictSet d key (inferenceResult pages v lv.2) else d) k' = dictGet d k'
      by_cases hc : (!v.isEmpty && (!b || decide (v ≠ "Not Found".data))) = true
      · rw [if_pos hc, dictGet_dictSet_ne _ _ _ _ h]
      · rw [if_neg hc]

theorem dictGet_overrideFor_self (pages : List PageText) (key : Str) (b : Bool)
    (lv : Option Str × Option Nat) (d : RDict) :
    dictGet (overrideFor pages key b lv d) key =
      match lv.1 with
      | some v =>
          if !v.isEmpty && (!b || decide (v ≠ "Not Found".data)) then
            some (inferenceResult pages v lv.2)
          else dictGet d key
      | none => dictGet d key := by
  unfold overrideFor
  cases lv.1 with
  | none => rfl
  | some v =>
      show dictGet (if !v.isEmpty && (!b || decide (v ≠ "Not Found".data)) then
            dictSet d key (inferenceResult pages v lv.2) else d) key =
          if !v.isEmpty && (!b || decide (v ≠ "Not Found".data)) then
            some (inferenceResult pages v lv.2)
          else dictGet d key
      by_cases hc : (!v.isEmpty && (!b || decide (v ≠ "Not Found".data))) = true
      · rw [if_pos hc, if_pos hc, dictGet_dictSet_self]
      · rw [if_neg hc, if_neg hc]

theorem dictGet_map_assoc (l : List Str) (G : Str → ExtractionResult) (f : Str)
    (hnd : l.Nodup) (hf : f ∈ l) :
    dictGet (l.map (fun k => (k, G k))) f = some (G f) := by
  induction l with
  | nil => cases hf
  | cons k ks ih =>
      have hnd' : ks.Nodup := (List.nodup_cons.mp hnd).2
      by_cases h : f = k
      · subst h
        simp [dictGet]
      · have : ¬ ((k : Str) = f) := fun hc => h hc.symm
        simp only [List.map_cons, dictGet, this, if_neg]
        exact ih hnd' (by
          rcases List.mem_cons.mp hf with h' | h'
          · exact absurd h' h
          · exact h')

theorem supported_keys_nodup : SUPPORTED_KEYS.Nodup := by decide

theorem dictGet_buildAnalysis (d : RDict) (f : Str) (hf : f ∈ SUPPORTED_KEYS) :
    dictGet (buildAnalysis d) f =
      some (match dictGet d f with
            | some r => r
            | none => ⟨some "Not Found".data, .SystemFallback, none, none⟩) := by
  unfold buildAnalysis
  exact dictGet_map_assoc SUPPORTED_KEYS _ f supported_keys_nodup hf

/-- The `final_data` dict whose contents `buildAnalysis` reads, after
merging and LLM prioritisation. -/
def finalData (eng : RegexEngine) (patterns : Str → Option PatternConfig)
    (sents : Str → List Str) (raws : LlmRaws) (pages : List PageText) : RDict :=
  prioritizeLlm pages
    (merge_window_results patterns pages (all_hits eng patterns sents (preprocessPages pages)))
    (get_start_date_with_llm (preprocessPages pages) raws.rawStart)
    (get_end_date_with_llm (preprocessPages pages) raws.rawEnd)
    (get_renewal_terms_with_llm (preprocessPages pages) raws.rawRenewal)
    (get_termination_notice_period_with_llm (preprocessPages pages) raws.rawTermination)

theorem extract_analysis_eq (eng : RegexEngine) (patterns : Str → Option PatternConfig)
    (sents : Str → List Str) (raws : LlmRaws) (pages : List PageText) :
    extract_analysis eng patterns sents raws pages =
      buildAnalysis (finalData eng patterns sents raws pages) := rfl

/-- The merge dict for a document run. -/
def mergeOf (eng : RegexEngine) (patterns : Str → Option PatternConfig)
    (sents : Str → List Str) (pages : List PageText) : RDict :=
  merge_window_results patterns pages (all_hits eng patterns sents (preprocessPages pages))

theorem finalData_get_start (eng : RegexEngine) (patterns : Str → Option PatternConfig)
    (sents : Str → List Str) (raws : LlmRaws) (pages : List PageText) :
    dictGet (finalData eng patterns sents raws pages) "start_date".data =
      (match (get_start_date_with_llm (preprocessPages pages) raws.rawStart).1 with
       | some v =>
           if !v.isEmpty && (!true || decide (v ≠ "Not Found".data)) then
             some (inferenceResult pages v
               (get_start_date_with_llm (preprocessPages pages) raws.rawStart).2)
           else dictGet (mergeOf eng patterns sents pages) "start_date".data
       | none => dictGet (mergeOf eng patterns sents pages) "start_date".data) := by
  unfold finalData prioritizeLlm mergeOf
  rw [dictGet_overrideFor_ne _ _ _ _ _ _ (by decide)]
  rw [dictGet_overrideFor_ne _ _ _ _ _ _ (by decide)]
  rw [dictGet_overrideFor_ne _ _ _ _ _ _ (by decide)]
  exact dictGet_overrideFor_self _ _ _ _ _

theorem finalData_get_end (eng : RegexEngine) (patterns : Str → Option PatternConfig)
    (sents : Str → List Str) (raws : LlmRaws) (pages : List PageText) :
    dictGet (finalData eng patterns sents raws pages) "end_date".data =
      (match (get_end_date_with_llm (preprocessPages pages) raws.rawEnd).1 with
       | some v =>
           if !v.isEmpty && (!true || decide (v ≠ "Not Found".data)) then
             some (inferenceResult pages v
               (get_end_date_with_llm (preprocessPages pages) raws.rawEnd).2)
           else dictGet (mergeOf eng patterns sents pages) "end_date".data
       | none => dictGet (mergeOf eng patterns sents pages) "end_date".data) := by
  unfold finalData prioritizeLlm mergeOf
  rw [dictGet_overrideFor_ne _ _ _ _ _ _ (by decide)]
  rw [dictGet_overrideFor_ne _ _ _ _ _ _ (by decide)]
  rw [dictGet_overrideFor_self]
  rw [dictGet_overrideFor_ne _ _ _ _ _ _ (by decide)]

theorem finalData_get_renewal (eng : RegexEngine) (patterns : Str → Option PatternConfig)
    (sents : Str → List Str) (raws : LlmRaws) (pages : List PageText) :
    dictGet (finalData eng patterns sents raws pages) "renewal_terms".data =
      (match (get_renewal_terms_with_llm (preprocessPages pages) raws.rawRenewal).1 with
       | some v =>
           if !v.isEmpty && (!true || decide (v ≠ "Not Found".data)) then
             some (inferenceResult pages v
               (get_renewal_terms_with_llm (preprocessPages pages) raws.rawRenewal).2)
           else dictGet (mergeOf eng patterns sents pages) "renewal_terms".data
       | none => dictGet (mergeOf eng patterns sents pages) "renewal_terms".data) := by
  unfold finalData prioritizeLlm mergeOf
  rw [dictGet_overrideFor_ne _ _ _ _ _ _ (by decide)]
  rw [dictGet_overrideFor_self]
  rw [dictGet_overrideFor_ne _ _ _ _ _ _ (by decide)]
  rw [dictGet_overrideFor_ne _ _ _ _ _ _ (by decide)]

theorem finalData_get_termination (eng : RegexEngine) (patterns : Str → Option PatternConfig)
    (sents : Str → List Str) (raws : LlmRaws) (pages : List PageText) :
    dictGet (finalData eng patterns sents raws pages) "termination_notice_period".data =
      (match (get_termination_notice_period_with_llm (preprocessPages pages)
          raws.rawTermination).1 with
       | some v =>
           if !v.isEmpty && (!false || decide (v ≠ "Not Found".data)) then
             some (inferenceResult pages v
               (get_termination_notice_period_with_llm (preprocessPages pages)
                 raws.rawTermination).2)
           else dictGet (mergeOf eng patterns sents pages) "termination_notice_period".data
       | none => dictGet (mergeOf eng patterns sents pages) "termination_notice_period".data) := by
  unfold finalData prioritizeLlm mergeOf
  rw [dictGet_overrideFor_self]
  rw [dictGet_overrideFor_ne _ _ _ _ _ _ (by decide)]
  rw [dictGet_overrideFor_ne _ _ _ _ _ _ (by decide)]
  rw [dictGet_overrideFor_ne _ _ _ _ _ _ (by decide)]

/-- Lookup in the merge dict, split by whether the field had any hit. -/
theorem merge_source (patterns : Str → Option PatternConfig) (pages : List PageText)
    (hits : List Hit) (f : Str) (hf : f ∈ SUPPORTED_KEYS) :
    (groupEntries hits f = [] →
        dictGet (merge_window_results patterns pages hits) f =
          some (fallbackResult patterns f)) ∧
    (∀ e es, groupEntries hits f = e :: es →
        dictGet (merge_window_results patterns pages hits) f =
          some (mergedResultFor pages e es)) := by
  constructor
  · intro hnil
    rw [dictGet_merge patterns pages hits f hf]
    unfold mergedOpt
    rw [hnil]
  · intro e es hcons
    rw [dictGet_merge patterns pages hits f hf]
    unfold mergedOpt
    rw [hcons]

/-- The final per-field source, as the claims read it. -/
def fieldSource (eng : RegexEngine) (patterns : Str → Option PatternConfig)
    (sents : Str → List Str) (raws : LlmRaws) (pages : List PageText) (f : Str) :
    Option ExtractionSource :=
  (dictGet (extract_analysis eng patterns sents raws pages) f).map (fun r => r.source)

theorem fieldSource_of_finalData (eng : RegexEngine) (patterns : Str → Option PatternConfig)
    (sents : Str → List Str) (raws : LlmRaws) (pages : List PageText) (f : Str)
    (hf : f ∈ SUPPORTED_KEYS) (r : ExtractionResult)
    (h : dictGet (finalData eng patterns sents raws pages) f = some r) :
    dictGet (extract_analysis eng patterns sents raws pages) f = some r ∧
      fieldSource eng patterns sents raws pages f = some r.source := by
  have hb := dictGet_buildAnalysis (finalData eng patterns sents raws pages) f hf
  rw [h] at hb
  rw [extract_analysis_eq]
  refine ⟨hb, ?_⟩
  unfold fieldSource
  rw [extract_analysis_eq, hb]
  rfl


/-- Analysis entry for a field whose override guard checks the
"Not Found" literal (start/end/renewal): accepted answer, or the merge
entry otherwise. -/
theorem checked_field_cases (eng : RegexEngine) (patterns : Str → Option PatternConfig)
    (sents : Str → List Str) (raws : LlmRaws) (pages : List PageText)
    (f : Str) (hf : f ∈ SUPPORTED_KEYS) (lv : Option Str × Option Nat)
    (heq : dictGet (finalData eng patterns sents raws pages) f =
      (match lv.1 with
       | some v =>
           if !v.isEmpty && (!true || decide (v ≠ "Not Found".data)) then
             some (inferenceResult pages v lv.2)
           else dictGet (mergeOf eng patterns sents pages) f
       | none => dictGet (mergeOf eng patterns sents pages) f)) :
    (∀ v, lv.1 = some v → v ≠ [] → v ≠ "Not Found".data →
      dictGet (extract_analysis eng patterns sents raws pages) f =
          some (inferenceResult pages v lv.2) ∧
        fieldSource eng patterns sents raws pages f = some .Inference) ∧
    ((lv.1 = none ∨ ∃ v, lv.1 = some v ∧ (v = [] ∨ v = "Not Found".data)) →
      (groupEntries (all_hits eng patterns sents (preprocessPages pages)) f = [] →
        dictGet (extract_analysis eng patterns sents raws pages) f =
            some (fallbackResult patterns f) ∧
          fieldSource eng patterns sents raws pages f = some .SystemFallback) ∧
      (∀ e es, groupEntries (all_hits eng patterns sents (preprocessPages pages)) f = e :: es →
        dictGet (extract_analysis eng patterns sents raws pages) f =
            some (mergedResultFor pages e es) ∧
          fieldSource eng patterns sents raws pages f = some .Regex)) := by
  constructor
  · intro v hv hne hnnf
    rw [hv] at heq
    have heq2 : dictGet (finalData eng patterns sents raws pages) f =
        if !v.isEmpty && (!true || decide (v ≠ "Not Found".data)) then
          some (inferenceResult pages v lv.2)
        else dictGet (mergeOf eng patterns sents pages) f := heq
    have hcond : (!v.isEmpty && (!true || decide (v ≠ "Not Found".data))) = true := by
      simp [List.isEmpty_iff, hne, hnnf]
    rw [if_pos hcond] at heq2
    exact fieldSource_of_finalData eng patterns sents raws pages f hf _ heq2
  · intro hnus
    have heq2 : dictGet (finalData eng patterns sents raws pages) f =
        dictGet (mergeOf eng patterns sents pages) f := by
      rcases hnus with hnone | ⟨v, hv, hbad⟩
      · rw [hnone] at heq; exact heq
      · rw [hv] at heq
        have heq3 : dictGet (finalData eng patterns sents raws pages) f =
            if !v.isEmpty && (!true || decide (v ≠ "Not Found".data)) then
              some (inferenceResult pages v lv.2)
            else dictGet (mergeOf eng patterns sents pages) f := heq
        have hcond : (!v.isEmpty && (!true || decide (v ≠ "Not Found".data))) = false := by
          rcases hbad with hbad | hbad
          · subst hbad; simp
          · subst hbad; simp
        rw [if_neg (by rw [hcond]; simp)] at heq3
        exact heq3
    unfold mergeOf at heq2
    constructor
    · intro hnil
      have hm := (merge_source patterns pages
        (all_hits eng patterns sents (preprocessPages pages)) f hf).1 hnil
      exact fieldSource_of_finalData eng patterns sents raws pages f hf _ (heq2.trans hm)
    · intro e es hcons
      have hm := (merge_source patterns pages
        (all_hits eng patterns sents (preprocessPages pages)) f hf).2 e es hcons
      exact fieldSource_of_finalData eng patterns sents raws pages f hf _ (heq2.trans hm)

/-- Analysis entry for `termination_notice_period`, whose override
guard has no "Not Found" check: any non-empty answer is accepted. -/
theorem termination_field_cases (eng : RegexEngine) (patterns : Str → Option PatternConfig)
    (sents : Str → List Str) (raws : LlmRaws) (pages : List PageText)
    (lv : Option Str × Option Nat)
    (heq : dictGet (finalData eng patterns sents raws pages) "termination_notice_period".data =
      (match lv.1 with
       | some v =>
           if !v.isEmpty && (!false || decide (v ≠ "Not Found".data)) then
             some (inferenceResult pages v lv.2)
           else dictGet (mergeOf eng patterns sents pages) "termination_notice_period".data
       | none => dictGet (mergeOf eng patterns sents pages) "termination_notice_period".data)) :
    (∀ v, lv.1 = some v → v ≠ [] →
      dictGet (extract_analysis eng patterns sents raws pages)
            "termination_notice_period".data = some (inferenceResult pages v lv.2) ∧
        fieldSource eng patterns sents raws pages "termination_notice_period".data =
          some .Inference) ∧
    ((lv.1 = none ∨ lv.1 = some []) →
      (groupEntries (all_hits eng patterns sents (preprocessPages pages))
          "termination_notice_period".data = [] →
        dictGet (extract_analysis eng patterns sents raws pages)
            "termination_notice_period".data = some (fallbackResult patterns
              "termination_notice_period".data) ∧
          fieldSource eng patterns sents raws pages "termination_notice_period".data =
            some .SystemFallback) ∧
      (∀ e es, groupEntries (all_hits eng patterns sents (preprocessPages pages))
          "termination_notice_period".data = e :: es →
        dictGet (extract_analysis eng patterns sents raws pages)
            "termination_notice_period".data = some (mergedResultFor pages e es) ∧
          fieldSource eng patterns sents raws pages "termination_notice_period".data =
            some .Regex)) := by
  have hf : "termination_notice_period".data ∈ SUPPORTED_KEYS := by decide
  constructor
  · intro v hv hne
    rw [hv] at heq
    have heq2 : dictGet (finalData eng patterns sents raws pages)
        "termination_notice_period".data =
        if !v.isEmpty && (!false || decide (v ≠ "Not Found".data)) then
          some (inferenceResult pages v lv.2)
        else dictGet (mergeOf eng patterns sents pages) "termination_notice_period".data := heq
    have hcond : (!v.isEmpty && (!false || decide (v ≠ "Not Found".data))) = true := by
      simp [List.isEmpty_iff, hne]
    rw [if_pos hcond] at heq2
    exact fieldSource_of_finalData eng patterns sents raws pages _ hf _ heq2
  · intro hnus
    have heq2 : dictGet (finalData eng patterns sents raws pages)
        "termination_notice_period".data =
        dictGet (mergeOf eng patterns sents pages) "termination_notice_period".data := by
      rcases hnus with hnone | hempty
      · rw [hnone] at heq; exact heq
      · rw [hempty] at heq
        exact heq
    unfold mergeOf at heq2
    constructor
    · intro hnil
      have hm := (merge_source patterns pages
        (all_hits eng patterns sents (preprocessPages pages)) _ hf).1 hnil
      exact fieldSource_of_finalData eng patterns sents raws pages _ hf _ (heq2.trans hm)
    · intro e es hcons
      have hm := (merge_source patterns pages
        (all_hits eng patterns sents (preprocessPages pages)) _ hf).2 e es hcons
      exact fieldSource_of_finalData eng patterns sents raws pages _ hf _ (heq2.trans hm)

-- ------------------------------------------------------------------
-- Concrete run environments for witnesses and counterexamples
-- ------------------------------------------------------------------

def pagesW : List PageText := [⟨1, "Hello world agreement text.".data⟩]

def wtextW : Str := "Hello world agreement text.".data

/-- A concrete regex oracle: pattern string "SD" matches the literal
`agreement`, pattern string "TN" yields `30 days`. -/
def engW : RegexEngine :=
  ⟨fun _ _ => .ok [],
   fun p t =>
     if p = "SD" && containsSub t "agreement".data then .ok (some ⟨"agreement".data, []⟩)
     else if p = "TN" && containsSub t "agreement".data then .ok (some ⟨"30 days".data, []⟩)
     else .ok none⟩

def patsW : Str → Option PatternConfig := fun k =>
  if k = "start_date".data then some ⟨["SD"], none, some "Not Found".data, false⟩
  else if k = "termination_notice_period".data then
    some ⟨["TN"], none, some "Not Found".data, false⟩
  else none

def sentsW : Str → List Str := fun s => [s]

def rawsW : LlmRaws := ⟨some "Not Found".data, none, none, some "Not Found".data⟩

def rawsC1W : LlmRaws := ⟨some "March 3, 2021".data, none, none, none⟩

-- ------------------------------------------------------------------
-- C1
-- ------------------------------------------------------------------

/-- C1 (amended): the Inference-over-Regex-over-SystemFallback priority
law holds as stated for `start_date`, `end_date` and `renewal_terms`
(a usable model answer — non-empty and not "Not Found" — yields source
Inference; otherwise a window hit yields Regex and no hit yields
SystemFallback).  For `termination_notice_period` the override guard
omits the "Not Found" comparison, so ANY non-empty sanitized answer —
including the literal "Not Found" — yields source Inference; only a
missing or empty answer falls back to Regex or SystemFallback. -/
theorem c1_priority_law (eng : RegexEngine) (patterns : Str → Option PatternConfig)
    (sents : Str → List Str) (raws : LlmRaws) (pages : List PageText) :
    (∀ v, (get_start_date_with_llm (preprocessPages pages) raws.rawStart).1 = some v →
        v ≠ [] → v ≠ "Not Found".data →
        fieldSource eng patterns sents raws pages "start_date".data = some .Inference) ∧
    (((get_start_date_with_llm (preprocessPages pages) raws.rawStart).1 = none ∨
        ∃ v, (get_start_date_with_llm (preprocessPages pages) raws.rawStart).1 = some v ∧
          (v = [] ∨ v = "Not Found".data)) →
      (groupEntries (all_hits eng patterns sents (preprocessPages pages)) "start_date".data = [] →
        fieldSource eng patterns sents raws pages "start_date".data = some .SystemFallback) ∧
      (∀ e es, groupEntries (all_hits eng patterns sents (preprocessPages pages))
            "start_date".data = e :: es →
        fieldSource eng patterns sents raws pages "start_date".data = some .Regex)) ∧
    (∀ v, (get_end_date_with_llm (preprocessPages pages) raws.rawEnd).1 = some v →
        v ≠ [] → v ≠ "Not Found".data →
        fieldSource eng patterns sents raws pages "end_date".data = some .Inference) ∧
    (((get_end_date_with_llm (preprocessPages pages) raws.rawEnd).1 = none ∨
        ∃ v, (get_end_date_with_llm (preprocessPages pages) raws.rawEnd).1 = some v ∧
          (v = [] ∨ v = "Not Found".data)) →
      (groupEntries (all_hits eng patterns sents (preprocessPages pages)) "end_date".data = [] →
        fieldSource eng patterns sents raws pages "end_date".data = some .SystemFallback) ∧
      (∀ e es, groupEntries (all_hits eng patterns sents (preprocessPages pages))
            "end_date".data = e :: es →
        fieldSource eng patterns sents raws pages "end_date".data = some .Regex)) ∧
    (∀ v, (get_renewal_terms_with_llm (preprocessPages pages) raws.rawRenewal).1 = some v →
        v ≠ [] → v ≠ "Not Found".data →
        fieldSource eng patterns sents raws pages "renewal_terms".data = some .Inference) ∧
    (((get_renewal_terms_with_llm (preprocessPages pages) raws.rawRenewal).1 = none ∨
        ∃ v, (get_renewal_terms_with_llm (preprocessPages pages) raws.rawRenewal).1 = some v ∧
          (v = [] ∨ v = "Not Found".data)) →
      (groupEntries (all_hits eng patterns sents (preprocessPages pages))
          "renewal_terms".data = [] →
        fieldSource eng patterns sents raws pages "renewal_terms".data =
          some .SystemFallback) ∧
      (∀ e es, groupEntries (all_hits eng patterns sents (preprocessPages pages))
            "renewal_terms".data = e :: es →
        fieldSource eng patterns sents raws pages "renewal_terms".data = some .Regex)) ∧
    (∀ v, (get_termination_notice_period_with_llm (preprocessPages pages)
          raws.rawTermination).1 = some v → v ≠ [] →
        fieldSource eng patterns sents raws pages "termination_notice_period".data =
          some .Inference) ∧
    (((get_termination_notice_period_with_llm (preprocessPages pages)
          raws.rawTermination).1 = none ∨
      (get_termination_notice_period_with_llm (preprocessPages pages)
          raws.rawTermination).1 = some []) →
      (groupEntries (all_hits eng patterns sents (preprocessPages pages))
          "termination_notice_period".data = [] →
        fieldSource eng patterns sents raws pages "termination_notice_period".data =
          some .SystemFallback) ∧
      (∀ e es, groupEntries (all_hits eng patterns sents (preprocessPages pages))
            "termination_notice_period".data = e :: es →
        fieldSource eng patterns sents raws pages "termination_notice_period".data =
          some .Regex)) := by
  have hS := checked_field_cases eng patterns sents raws pages "start_date".data (by decide)
    (get_start_date_with_llm (preprocessPages pages) raws.rawStart)
    (finalData_get_start eng patterns sents raws pages)
  have hE := checked_field_cases eng patterns sents raws pages "end_date".data (by decide)
    (get_end_date_with_llm (preprocessPages pages) raws.rawEnd)
    (finalData_get_end eng patterns sents raws pages)
  have hR := checked_field_cases eng patterns sents raws pages "renewal_terms".data (by decide)
    (get_renewal_terms_with_llm (preprocessPages pages) raws.rawRenewal)
    (finalData_get_renewal eng patterns sents raws pages)
  have hT := termination_field_cases eng patterns sents raws pages
    (get_termination_notice_period_with_llm (preprocessPages pages) raws.rawTermination)
    (finalData_get_termination eng patterns sents raws pages)
  refine ⟨fun v hv h1 h2 => (hS.1 v hv h1 h2).2,
          fun hn => ⟨fun hnil => ((hS.2 hn).1 hnil).2,
                     fun e es hc => ((hS.2 hn).2 e es hc).2⟩,
          fun v hv h1 h2 => (hE.1 v hv h1 h2).2,
          fun hn => ⟨fun hnil => ((hE.2 hn).1 hnil).2,
                     fun e es hc => ((hE.2 hn).2 e es hc).2⟩,
          fun v hv h1 h2 => (hR.1 v hv h1 h2).2,
          fun hn => ⟨fun hnil => ((hR.2 hn).1 hnil).2,
                     fun e es hc => ((hR.2 hn).2 e es hc).2⟩,
          fun v hv h1 => (hT.1 v hv h1).2,
          fun hn => ⟨fun hnil => ((hT.2 ?_).1 hnil).2,
                     fun e es hc => ((hT.2 ?_).2 e es hc).2⟩⟩
  · rcases hn with hn | hn
    · exact Or.inl hn
    · exact Or.inr hn
  · rcases hn with hn | hn
    · exact Or.inl hn
    · exact Or.inr hn

/-- C1 counterexample: the claim as stated is false for
`termination_notice_period` — here the sanitized model answer is the
unusable literal "Not Found" and a window produced a deterministic hit,
yet the final source is Inference, not Regex. -/
theorem c1_counterexample :
    (get_termination_notice_period_with_llm (preprocessPages pagesW)
        rawsW.rawTermination).1 = some "Not Found".data ∧
    groupEntries (all_hits engW patsW sentsW (preprocessPages pagesW))
        "termination_notice_period".data =
      [("30 days".data, some 1, wtextW)] ∧
    fieldSource engW patsW sentsW rawsW pagesW "termination_notice_period".data =
      some .Inference := by
  refine ⟨by decide, by decide, by decide⟩

/-- C1 witness: a concrete run exercising the amended law — a usable
start-date answer wins as Inference, and a missing termination answer
leaves the deterministic hit as Regex. -/
theorem c1_witness :
    (get_start_date_with_llm (preprocessPages pagesW) rawsC1W.rawStart).1 =
        some "March 3, 2021".data ∧
    fieldSource engW patsW sentsW rawsC1W pagesW "start_date".data = some .Inference ∧
    fieldSource engW patsW sentsW rawsC1W pagesW "termination_notice_period".data =
      some .Regex := by
  have h := c1_priority_law engW patsW sentsW rawsC1W pagesW
  refine ⟨by decide, ?_, ?_⟩
  · exact h.1 "March 3, 2021".data (by decide) (by decide) (by decide)
  · exact (h.2.2.2.2.2.2.2 (Or.inl (by decide))).2
      ("30 days".data, some 1, wtextW) [] (by decide)

-- ------------------------------------------------------------------
-- C2
-- ------------------------------------------------------------------

/-- C2: for `start_date`, `end_date` and `renewal_terms` a sanitized
model answer equal to the literal "Not Found" never overrides a
deterministic hit — the final entry is the merged Regex result itself.
The `termination_notice_period` branch keeps the source's asymmetry:
any non-empty sanitized answer (with no "Not Found" check) overrides
with source Inference. -/
theorem c2_not_found_never_overrides (eng : RegexEngine)
    (patterns : Str → Option PatternConfig) (sents : Str → List Str)
    (raws : LlmRaws) (pages : List PageText) :
    (∀ e es, (get_start_date_with_llm (preprocessPages pages) raws.rawStart).1 =
          some "Not Found".data →
        groupEntries (all_hits eng patterns sents (preprocessPages pages))
            "start_date".data = e :: es →
        dictGet (extract_analysis eng patterns sents raws pages) "start_date".data =
            some (mergedResultFor pages e es) ∧
          fieldSource eng patterns sents raws pages "start_date".data = some .Regex) ∧
    (∀ e es, (get_end_date_with_llm (preprocessPages pages) raws.rawEnd).1 =
          some "Not Found".data →
        groupEntries (all_hits eng patterns sents (preprocessPages pages))
            "end_date".data = e :: es →
        dictGet (extract_analysis eng patterns sents raws pages) "end_date".data =
            some (mergedResultFor pages e es) ∧
          fieldSource eng patterns sents raws pages "end_date".data = some .Regex) ∧
    (∀ e es, (get_renewal_terms_with_llm (preprocessPages pages) raws.rawRenewal).1 =
          some "Not Found".data →
        groupEntries (all_hits eng patterns sents (preprocessPages pages))
            "renewal_terms".data = e :: es →
        dictGet (extract_analysis eng patterns sents raws pages) "renewal_terms".data =
            some (mergedResultFor pages e es) ∧
          fieldSource eng patterns sents raws pages "renewal_terms".data = some .Regex) ∧
    (∀ v, (get_termination_notice_period_with_llm (preprocessPages pages)
          raws.rawTermination).1 = some v → v ≠ [] →
        dictGet (extract_analysis eng patterns sents raws pages)
            "termination_notice_period".data =
          some (inferenceResult pages v
            (get_termination_notice_period_with_llm (preprocessPages pages)
              raws.rawTermination).2) ∧
        fieldSource eng patterns sents raws pages "termination_notice_period".data =
          some .Inference) := by
  have hS := checked_field_cases eng patterns sents raws pages "start_date".data (by decide)
    (get_start_date_with_llm (preprocessPages pages) raws.rawStart)
    (finalData_get_start eng patterns sents raws pages)
  have hE := checked_field_cases eng patterns sents raws pages "end_date".data (by decide)
    (get_end_date_with_llm (preprocessPages pages) raws.rawEnd)
    (finalData_get_end eng patterns sents raws pages)
  have hR := checked_field_cases eng patterns sents raws pages "renewal_terms".data (by decide)
    (get_renewal_terms_with_llm (preprocessPages pages) raws.rawRenewal)
    (finalData_get_renewal eng patterns sents raws pages)
  have hT := termination_field_cases eng patterns sents raws pages
    (get_termination_notice_period_with_llm (preprocessPages pages) raws.rawTermination)
    (finalData_get_termination eng patterns sents raws pages)
  refine ⟨?_, ?_, ?_, fun v hv h1 => hT.1 v hv h1⟩
  · intro e es hv hc
    exact (hS.2 (Or.inr ⟨_, hv, Or.inr rfl⟩)).2 e es hc
  · intro e es hv hc
    exact (hE.2 (Or.inr ⟨_, hv, Or.inr rfl⟩)).2 e es hc
  · intro e es hv hc
    exact (hR.2 (Or.inr ⟨_, hv, Or.inr rfl⟩)).2 e es hc

/-- C2 witness: concretely, a model "Not Found" for `start_date` loses
to the window hit (source Regex), and the non-empty termination answer
— itself the literal "Not Found" — overrides as Inference. -/
theorem c2_witness :
    (get_start_date_with_llm (preprocessPages pagesW) rawsW.rawStart).1 =
        some "Not Found".data ∧
    dictGet (extract_analysis engW patsW sentsW rawsW pagesW) "start_date".data =
      some (mergedResultFor pagesW ("agreement".data, some 1, wtextW) []) ∧
    fieldSource engW patsW sentsW rawsW pagesW "start_date".data = some .Regex ∧
    fieldSource engW patsW sentsW rawsW pagesW "termination_notice_period".data =
      some .Inference := by
  have h := c2_not_found_never_overrides engW patsW sentsW rawsW pagesW
  have hs := h.1 ("agreement".data, some 1, wtextW) [] (by decide) (by decide)
  refine ⟨by decide, hs.1, hs.2, ?_⟩
  exact (h.2.2.2 "Not Found".data (by decide) (by decide)).2

-- ------------------------------------------------------------------
-- Structure of the gathered hits and of final entries (for C3, C4, C7)
-- ------------------------------------------------------------------

theorem pyMaxByLen_mem (x : Str × Option Nat × Str) (l : List (Str × Option Nat × Str)) :
    pyMaxByLen x l ∈ x :: l := by
  induction l generalizing x with
  | nil => simp [pyMaxByLen]
  | cons y ys ih =>
      simp only [pyMaxByLen, List.foldl_cons]
      by_cases h : y.1.length > x.1.length
      · simp only [if_pos h]
        have hm := ih y
        simp only [pyMaxByLen] at hm
        rcases List.mem_cons.mp hm with h' | h'
        · rw [h']; simp
        · simp [List.mem_cons, h']
      · simp only [if_neg h]
        have hm := ih x
        simp only [pyMaxByLen] at hm
        rcases List.mem_cons.mp hm with h' | h'
        · rw [h']; simp
        · simp [List.mem_cons, h']

theorem mem_groupEntries (hits : List Hit) (f : Str) (x : Str × Option Nat × Str) :
    x ∈ groupEntries hits f ↔ (f, x) ∈ hits := by
  unfold groupEntries
  rw [List.mem_filterMap]
  constructor
  · rintro ⟨h, hmem, hx⟩
    by_cases hk : h.1 = f
    · rw [if_pos hk] at hx
      injection hx with hx
      have he : h = (f, x) := by
        obtain ⟨h1, h2⟩ := h
        simp only at hk hx
        rw [hk, hx]
      rw [← he]; exact hmem
    · rw [if_neg hk] at hx
      cases hx
  · intro hmem
    exact ⟨(f, x), hmem, by simp⟩

theorem mem_windows (sents : Str → List Str) (pages : List PageText)
    (cfg : WindowConfig) (w : ContextWindow)
    (hw : w ∈ generate_context_windows sents pages cfg) :
    ∃ pg ∈ pages, w.page_number = pg.page_number := by
  unfold generate_context_windows at hw
  rw [List.mem_flatMap] at hw
  obtain ⟨pg, hpg, hw⟩ := hw
  rw [List.mem_map] at hw
  obtain ⟨t, _, hwt⟩ := hw
  exact ⟨pg, hpg, by rw [← hwt]⟩

theorem mem_all_hits (eng : RegexEngine) (patterns : Str → Option PatternConfig)
    (sents : Str → List Str) (pre : List PageText) (h : Hit)
    (hmem : h ∈ all_hits eng patterns sents pre) :
    h.1 ∈ SUPPORTED_KEYS ∧ h.2.1 ≠ [] ∧
      ∃ w ∈ generate_context_windows sents pre defaultWindowConfig,
        h.2.2.1 = some w.page_number ∧ h.2.2.2 = w.text := by
  unfold all_hits at hmem
  rw [List.mem_flatMap] at hmem
  obtain ⟨w, hw, hmem⟩ := hmem
  rw [List.mem_map] at hmem
  obtain ⟨kv, hkv, hh⟩ := hmem
  unfold extract_with_patterns at hkv
  rw [List.mem_filterMap] at hkv
  obtain ⟨key, hkey, hkv⟩ := hkv
  have hprops : kv.1 = key ∧ kv.2 ≠ [] := by
    cases hcfg : patterns key with
    | none => rw [hcfg] at hkv; cases hkv
    | some cfg =>
        rw [hcfg] at hkv
        have hkv2 : (match apply_pattern_config eng w.text cfg with
            | some v => if v.isEmpty = true then none else some (key, v)
            | none => none) = some kv := hkv
        cases happ : apply_pattern_config eng w.text cfg with
        | none => rw [happ] at hkv2; cases hkv2
        | some v =>
            rw [happ] at hkv2
            have hkv3 : (if v.isEmpty = true then none else some (key, v)) =
                some kv := hkv2
            by_cases hve : v.isEmpty
            · rw [if_pos hve] at hkv3; cases hkv3
            · rw [if_neg hve] at hkv3
              cases hkv3
              exact ⟨rfl, by simpa [List.isEmpty_iff] using hve⟩
  refine ⟨?_, ?_, w, hw, ?_, ?_⟩
  · rw [← hh]; simpa [hprops.1] using hkey
  · rw [← hh]; exact hprops.2
  · rw [← hh]
  · rw [← hh]

theorem mem_preprocessPages (pages : List PageText) (pg' : PageText)
    (h : pg' ∈ preprocessPages pages) :
    ∃ pg ∈ pages, pg'.page_number = pg.page_number := by
  unfold preprocessPages at h
  rw [List.mem_map] at h
  obtain ⟨pg, hpg, hq⟩ := h
  exact ⟨pg, hpg, by rw [← hq]⟩

/-- Every final-dict entry for a supported key is a configured
fallback, a merged Regex hit, or an accepted (non-empty) model answer. -/
theorem finalData_entry_cases (eng : RegexEngine) (patterns : Str → Option PatternConfig)
    (sents : Str → List Str) (raws : LlmRaws) (pages : List PageText)
    (f : Str) (hf : f ∈ SUPPORTED_KEYS) (b : Bool) (lv : Option Str × Option Nat)
    (heq : dictGet (finalData eng patterns sents raws pages) f =
      (match lv.1 with
       | some v =>
           if !v.isEmpty && (!b || decide (v ≠ "Not Found".data)) then
             some (inferenceResult pages v lv.2)
           else dictGet (mergeOf eng patterns sents pages) f
       | none => dictGet (mergeOf eng patterns sents pages) f)) :
    ∃ r, dictGet (finalData eng patterns sents raws pages) f = some r ∧
      (r = fallbackResult patterns f ∨
       (∃ e es, groupEntries (all_hits eng patterns sents (preprocessPages pages)) f =
          e :: es ∧ r = mergedResultFor pages e es) ∨
       (∃ v, lv.1 = some v ∧ v ≠ [] ∧ r = inferenceResult pages v lv.2)) := by
  have hmerge : ∃ r, dictGet (mergeOf eng patterns sents pages) f = some r ∧
      (r = fallbackResult patterns f ∨
       (∃ e es, groupEntries (all_hits eng patterns sents (preprocessPages pages)) f =
          e :: es ∧ r = mergedResultFor pages e es)) := by
    unfold mergeOf
    cases hge : groupEntries (all_hits eng patterns sents (preprocessPages pages)) f with
    | nil =>
        refine ⟨fallbackResult patterns f, ?_, Or.inl rfl⟩
        exact (merge_source patterns pages _ f hf).1 hge
    | cons e es =>
        refine ⟨mergedResultFor pages e es, ?_, Or.inr ⟨e, es, rfl, rfl⟩⟩
        exact (merge_source patterns pages _ f hf).2 e es hge
  cases hlv : lv.1 with
  | none =>
      rw [hlv] at heq
      obtain ⟨r, hr, hcase⟩ := hmerge
      exact ⟨r, heq.trans hr, by
        rcases hcase with hc | hc
        · exact Or.inl hc
        · exact Or.inr (Or.inl hc)⟩
  | some v =>
      rw [hlv] at heq
      have heq2 : dictGet (finalData eng patterns sents raws pages) f =
          if !v.isEmpty && (!b || decide (v ≠ "Not Found".data)) then
            some (inferenceResult pages v lv.2)
          else dictGet (mergeOf eng patterns sents pages) f := heq
      by_cases hc : (!v.isEmpty && (!b || decide (v ≠ "Not Found".data))) = true
      · rw [if_pos hc] at heq2
        have hvne : v ≠ [] := by
          intro hcon
          subst hcon
          simp at hc
        exact ⟨_, heq2, Or.inr (Or.inr ⟨v, rfl, hvne, rfl⟩)⟩
      · rw [if_neg hc] at heq2
        obtain ⟨r, hr, hcase⟩ := hmerge
        exact ⟨r, heq2.trans hr, by
          rcases hcase with h' | h'
          · exact Or.inl h'
          · exact Or.inr (Or.inl h')⟩

-- ------------------------------------------------------------------
-- C3
-- ------------------------------------------------------------------

theorem source_enum (s : ExtractionSource) :
    s = .Regex ∨ s = .SystemFallback ∨ s = .Inference ∨ s = .NoneSrc := by
  cases s
  · exact Or.inl rfl
  · exact Or.inr (Or.inl rfl)
  · exact Or.inr (Or.inr (Or.inl rfl))
  · exact Or.inr (Or.inr (Or.inr rfl))

theorem analysis_keys (eng : RegexEngine) (patterns : Str → Option PatternConfig)
    (sents : Str → List Str) (raws : LlmRaws) (pages : List PageText) :
    (extract_analysis eng patterns sents raws pages).map (fun kv => kv.1) =
      SUPPORTED_KEYS := by
  rw [extract_analysis_eq]
  unfold buildAnalysis
  rw [List.map_map]
  exact List.map_id _ ▸ (List.map_congr_left (fun k _ => rfl))

theorem finalData_value_nonempty (eng : RegexEngine)
    (patterns : Str → Option PatternConfig) (sents : Str → List Str)
    (raws : LlmRaws) (pages : List PageText)
    (hfb : ∀ k cfg, patterns k = some cfg → ∃ s, cfg.fallback_text = some s ∧ s ≠ [])
    (f : Str) (hf : f ∈ SUPPORTED_KEYS) (b : Bool) (lv : Option Str × Option Nat)
    (heq : dictGet (finalData eng patterns sents raws pages) f =
      (match lv.1 with
       | some v =>
           if !v.isEmpty && (!b || decide (v ≠ "Not Found".data)) then
             some (inferenceResult pages v lv.2)
           else dictGet (mergeOf eng patterns sents pages) f
       | none => dictGet (mergeOf eng patterns sents pages) f)) :
    ∃ r, dictGet (finalData eng patterns sents raws pages) f = some r ∧
      ∃ s, r.value = some s ∧ s ≠ [] := by
  obtain ⟨r, hr, hcase⟩ :=
    finalData_entry_cases eng patterns sents raws pages f hf b lv heq
  refine ⟨r, hr, ?_⟩
  rcases hcase with hc | ⟨e, es, hge, hc⟩ | ⟨v, _, hvne, hc⟩
  · subst hc
    unfold fallbackResult
    cases hp : patterns f with
    | none => exact ⟨"Not Found".data, by simp [hp], by decide⟩
    | some cfg =>
        obtain ⟨s, hs, hsne⟩ := hfb f cfg hp
        exact ⟨s, by simp [hp, hs], hsne⟩
  · subst hc
    have hmemge : pyMaxByLen e es ∈
        groupEntries (all_hits eng patterns sents (preprocessPages pages)) f := by
      rw [hge]; exact pyMaxByLen_mem e es
    have hhit := (mem_groupEntries _ _ _).mp hmemge
    have hfacts := mem_all_hits eng patterns sents (preprocessPages pages) _ hhit
    exact ⟨(pyMaxByLen e es).1, rfl, hfacts.2.1⟩
  · subst hc
    exact ⟨v, rfl, hvne⟩

/-- C3: a successful extraction's analysis has exactly the four
supported keys; every entry's value is non-null and non-empty (given
§3's contract that configured fallback strings are non-empty strings);
the source is one of the four enum members; and a field with neither a
window hit nor an accepted model answer carries its configured
fallback text (the literal "Not Found" when no config is loaded) with
source SystemFallback. -/
theorem c3_analysis_invariants (eng : RegexEngine)
    (patterns : Str → Option PatternConfig) (sents : Str → List Str)
    (raws : LlmRaws) (pages : List PageText)
    (hfb : ∀ k cfg, patterns k = some cfg → ∃ s, cfg.fallback_text = some s ∧ s ≠ []) :
    ((extract_analysis eng patterns sents raws pages).map (fun kv => kv.1) =
        SUPPORTED_KEYS) ∧
    (∀ f ∈ SUPPORTED_KEYS, ∃ r,
        dictGet (extract_analysis eng patterns sents raws pages) f = some r ∧
        (∃ s, r.value = some s ∧ s ≠ []) ∧
        (r.source = .Regex ∨ r.source = .SystemFallback ∨ r.source = .Inference ∨
          r.source = .NoneSrc)) ∧
    (((get_start_date_with_llm (preprocessPages pages) raws.rawStart).1 = none ∨
        ∃ v, (get_start_date_with_llm (preprocessPages pages) raws.rawStart).1 = some v ∧
          (v = [] ∨ v = "Not Found".data)) →
      groupEntries (all_hits eng patterns sents (preprocessPages pages))
          "start_date".data = [] →
      dictGet (extract_analysis eng patterns sents raws pages) "start_date".data =
        some (fallbackResult patterns "start_date".data)) ∧
    (((get_end_date_with_llm (preprocessPages pages) raws.rawEnd).1 = none ∨
        ∃ v, (get_end_date_with_llm (preprocessPages pages) raws.rawEnd).1 = some v ∧
          (v = [] ∨ v = "Not Found".data)) →
      groupEntries (all_hits eng patterns sents (preprocessPages pages))
          "end_date".data = [] →
      dictGet (extract_analysis eng patterns sents raws pages) "end_date".data =
        some (fallbackResult patterns "end_date".data)) ∧
    (((get_renewal_terms_with_llm (preprocessPages pages) raws.rawRenewal).1 = none ∨
        ∃ v, (get_renewal_terms_with_llm (preprocessPages pages) raws.rawRenewal).1 =
          some v ∧ (v = [] ∨ v = "Not Found".data)) →
      groupEntries (all_hits eng patterns sents (preprocessPages pages))
          "renewal_terms".data = [] →
      dictGet (extract_analysis eng patterns sents raws pages) "renewal_terms".data =
        some (fallbackResult patterns "renewal_terms".data)) ∧
    (((get_termination_notice_period_with_llm (preprocessPages pages)
          raws.rawTermination).1 = none ∨
      (get_termination_notice_period_with_llm (preprocessPages pages)
          raws.rawTermination).1 = some []) →
      groupEntries (all_hits eng patterns sents (preprocessPages pages))
          "termination_notice_period".data = [] →
      dictGet (extract_analysis eng patterns sents raws pages)
          "termination_notice_period".data =
        some (fallbackResult patterns "termination_notice_period".data)) := by
  have hS := checked_field_cases eng patterns sents raws pages "start_date".data (by decide)
    (get_start_date_with_llm (preprocessPages pages) raws.rawStart)
    (finalData_get_start eng patterns sents raws pages)
  have hE := checked_field_cases eng patterns sents raws pages "end_date".data (by decide)
    (get_end_date_with_llm (preprocessPages pages) raws.rawEnd)
    (finalData_get_end eng patterns sents raws pages)
  have hR := checked_field_cases eng patterns sents raws pages "renewal_terms".data (by decide)
    (get_renewal_terms_with_llm (preprocessPages pages) raws.rawRenewal)
    (finalData_get_renewal eng patterns sents raws pages)
  have hT := termination_field_cases eng patterns sents raws pages
    (get_termination_notice_period_with_llm (preprocessPages pages) raws.rawTermination)
    (finalData_get_termination eng patterns sents raws pages)
  refine ⟨analysis_keys eng patterns sents raws pages, ?_,
    fun hn hnil => ((hS.2 hn).1 hnil).1,
    fun hn hnil => ((hE.2 hn).1 hnil).1,
    fun hn hnil => ((hR.2 hn).1 hnil).1,
    fun hn hnil => ((hT.2 hn).1 hnil).1⟩
  intro f hf
  have hcases : f = "start_date".data ∨ f = "end_date".data ∨ f = "renewal_terms".data ∨
      f = "termination_notice_period".data := by
    simpa [SUPPORTED_KEYS] using hf
  have hval : ∃ r, dictGet (finalData eng patterns sents raws pages) f = some r ∧
      ∃ s, r.value = some s ∧ s ≠ [] := by
    rcases hcases with hfe | hfe | hfe | hfe <;> subst hfe
    · exact finalData_value_nonempty eng patterns sents raws pages hfb _ (by decide) true _
        (finalData_get_start eng patterns sents raws pages)
    · exact finalData_value_nonempty eng patterns sents raws pages hfb _ (by decide) true _
        (finalData_get_end eng patterns sents raws pages)
    · exact finalData_value_nonempty eng patterns sents raws pages hfb _ (by decide) true _
        (finalData_get_renewal eng patterns sents raws pages)
    · exact finalData_value_nonempty eng patterns sents raws pages hfb _ (by decide) false _
        (finalData_get_termination eng patterns sents raws pages)
  obtain ⟨r, hr, hv⟩ := hval
  have ha := fieldSource_of_finalData eng patterns sents raws pages f hf r hr
  exact ⟨r, ha.1, hv, source_enum r.source⟩

/-- C3 witness: a run with no configured patterns and no model output —
every field carries the "Not Found" system fallback, value non-empty. -/
theorem c3_witness :
    dictGet (extract_analysis engW (fun _ => none) sentsW ⟨none, none, none, none⟩ pagesW)
        "end_date".data =
      some (fallbackResult (fun _ => none) "end_date".data) ∧
    (extract_analysis engW (fun _ => none) sentsW ⟨none, none, none, none⟩ pagesW).map
        (fun kv => kv.1) = SUPPORTED_KEYS := by
  have h := c3_analysis_invariants engW (fun _ => none) sentsW ⟨none, none, none, none⟩
    pagesW (fun k cfg hk => by cases hk)
  exact ⟨h.2.2.2.1 (Or.inl (by decide)) (by decide), h.1⟩

-- ------------------------------------------------------------------
-- Substring facts for the attribution invariant (C4)
-- ------------------------------------------------------------------

/-- `s` occurs contiguously inside `t`. -/
def isSubstringOf (s t : Str) : Prop := ∃ pre post, t = pre ++ s ++ post

theorem substr_trans {a b c : Str} (h1 : isSubstringOf a b) (h2 : isSubstringOf b c) :
    isSubstringOf a c := by
  obtain ⟨p1, q1, hb⟩ := h1
  obtain ⟨p2, q2, hc⟩ := h2
  exact ⟨p2 ++ p1, q1 ++ q2, by rw [hc, hb]; simp [List.append_assoc]⟩

theorem dropTake_substr (t : Str) (a b : Nat) :
    isSubstringOf ((t.drop a).take b) t := by
  refine ⟨t.take a, (t.drop a).drop b, ?_⟩
  rw [List.append_assoc, List.take_append_drop, List.take_append_drop]

theorem pyStrip_substr (s : Str) : isSubstringOf (pyStrip s) s := by
  unfold pyStrip
  have h1 : isSubstringOf (s.dropWhile pyIsSpace) s :=
    ⟨s.takeWhile pyIsSpace, [], by rw [List.append_nil, List.takeWhile_append_dropWhile]⟩
  set u := s.dropWhile pyIsSpace with hu
  have h2 : isSubstringOf ((u.reverse.dropWhile pyIsSpace).reverse) u := by
    refine ⟨[], (u.reverse.takeWhile pyIsSpace).reverse, ?_⟩
    rw [List.nil_append]
    rw [← List.reverse_append, List.takeWhile_append_dropWhile, List.reverse_reverse]
  exact substr_trans h2 h1


theorem sliceAt_substr (text : Str) (idx len bound : Nat) :
    isSubstringOf (sliceAt text idx len bound) text := by
  unfold sliceAt
  exact substr_trans (pyStrip_substr _) (dropTake_substr _ _ _)

theorem sliceFuzzyBranch_substr (text value s : Str)
    (h : sliceFuzzyBranch text value = some s) : isSubstringOf s text := by
  unfold sliceFuzzyBranch at h
  split at h
  · cases h
  · split at h
    · cases h
    · injection h with h
      rw [← h]
      exact sliceAt_substr _ _ _ _

theorem slice_snippet_substr (text value s : Str)
    (h : slice_snippet_around_match text value = some s) : isSubstringOf s text := by
  unfold slice_snippet_around_match at h
  split at h
  · cases h
  · split at h
    · injection h with h
      rw [← h]
      exact sliceAt_substr _ _ _ _
    · exact sliceFuzzyBranch_substr text value s h

theorem nonEmptyOpt_eq_some {s x : Str} (h : nonEmptyOpt s = some x) : s = x := by
  unfold nonEmptyOpt at h
  split at h
  · cases h
  · injection h

theorem pageSnippet_cases (pages : List PageText) (v : Str) (page_number : Option Nat)
    (s : Str) (h : pageSnippet pages v page_number = some s) :
    ∃ n, page_number = some n ∧
      ∃ pg ∈ pages, pg.page_number = n ∧ isSubstringOf s pg.text := by
  unfold pageSnippet at h
  rw [Option.bind_eq_some] at h
  obtain ⟨n, hn, h⟩ := h
  rw [Option.bind_eq_some] at h
  obtain ⟨page, hfind, h⟩ := h
  rw [Option.bind_eq_some] at h
  obtain ⟨s2, hsl, h⟩ := h
  have hs2 := nonEmptyOpt_eq_some h
  refine ⟨n, hn, page, List.mem_of_find?_eq_some hfind, ?_, ?_⟩
  · simpa using List.find?_some hfind
  · rw [← hs2]
    exact slice_snippet_substr page.text v s2 hsl

theorem fallbackSnippet_cases (fallback_text : Option Str) (v s : Str)
    (h : fallbackSnippet fallback_text v = some s) :
    ∃ fb, fallback_text = some fb ∧ isSubstringOf s fb := by
  unfold fallbackSnippet at h
  rw [Option.bind_eq_some] at h
  obtain ⟨fb, hfb, h⟩ := h
  split at h
  · cases h
  · rw [Option.bind_eq_some] at h
    obtain ⟨s2, hsl, h⟩ := h
    have hs2 := nonEmptyOpt_eq_some h
    exact ⟨fb, hfb, hs2 ▸ slice_snippet_substr fb v s2 hsl⟩

theorem build_reference_snippet_cases (pages : List PageText) (value : Option Str)
    (page_number : Option Nat) (fallback_text : Option Str) (s : Str)
    (h : build_reference_snippet pages value page_number fallback_text = some s) :
    (∃ n, page_number = some n ∧
      ∃ pg ∈ pages, pg.page_number = n ∧ isSubstringOf s pg.text) ∨
    (∃ fb, fallback_text = some fb ∧ isSubstringOf s fb) := by
  unfold build_reference_snippet at h
  rw [Option.bind_eq_some] at h
  obtain ⟨v, _, h⟩ := h
  split at h
  · cases h
  · split at h
    · injection h with h
      exact Or.inl (pageSnippet_cases pages v page_number s (by rw [← h]; assumption))
    · exact Or.inr (fallbackSnippet_cases fallback_text v s h)

-- ------------------------------------------------------------------
-- C4
-- ------------------------------------------------------------------

/-- Attribution facts for one field's final entry (shared shape over
the override-guard flag `b`). -/
theorem c4_field_cases (eng : RegexEngine) (patterns : Str → Option PatternConfig)
    (sents : Str → List Str) (raws : LlmRaws) (pages : List PageText)
    (f : Str) (hf : f ∈ SUPPORTED_KEYS) (b : Bool) (lv : Option Str × Option Nat)
    (heq : dictGet (finalData eng patterns sents raws pages) f =
      (match lv.1 with
       | some v =>
           if !v.isEmpty && (!b || decide (v ≠ "Not Found".data)) then
             some (inferenceResult pages v lv.2)
           else dictGet (mergeOf eng patterns sents pages) f
       | none => dictGet (mergeOf eng patterns sents pages) f)) :
    ∀ r, dictGet (extract_analysis eng patterns sents raws pages) f = some r →
      ((r.source = .Regex → ∀ n, r.page_number = some n →
          ∃ pg ∈ pages, pg.page_number = n) ∧
       (∀ s, r.reference_snippet = some s →
          (∃ n, r.page_number = some n ∧
            ∃ pg ∈ pages, pg.page_number = n ∧ isSubstringOf s pg.text) ∨
          (∃ w ∈ generate_context_windows sents (preprocessPages pages) defaultWindowConfig,
             isSubstringOf s w.text))) := by
  intro r ha
  obtain ⟨r', hr', hcase⟩ :=
    finalData_entry_cases eng patterns sents raws pages f hf b lv heq
  have ha' := (fieldSource_of_finalData eng patterns sents raws pages f hf r' hr').1
  have hrr : r = r' := by
    rw [ha] at ha'
    exact Option.some.inj ha'
  subst hrr
  rcases hcase with hc | ⟨e, es, hge, hc⟩ | ⟨v, _, _, hc⟩
  · subst hc
    refine ⟨?_, ?_⟩
    · intro _ n hn
      cases hn
    · intro s hs
      cases hs
  · subst hc
    have hmemge : pyMaxByLen e es ∈
        groupEntries (all_hits eng patterns sents (preprocessPages pages)) f := by
      rw [hge]; exact pyMaxByLen_mem e es
    have hhit := (mem_groupEntries _ _ _).mp hmemge
    have hfacts := mem_all_hits eng patterns sents (preprocessPages pages) _ hhit
    obtain ⟨w, hw, hwpage, hwtext⟩ := hfacts.2.2
    refine ⟨?_, ?_⟩
    · intro _ n hn
      have hpn : (pyMaxByLen e es).2.1 = some n := hn
      rw [hwpage] at hpn
      injection hpn with hpn
      obtain ⟨pg', hpg', hnum⟩ := mem_windows sents (preprocessPages pages)
        defaultWindowConfig w hw
      obtain ⟨pg, hpg, hnum2⟩ := mem_preprocessPages pages pg' hpg'
      exact ⟨pg, hpg, by rw [← hnum2, ← hnum, hpn]⟩
    · intro s hs
      have hs' : build_reference_snippet pages (some (pyMaxByLen e es).1)
          (pyMaxByLen e es).2.1 (some (pyMaxByLen e es).2.2) = some s := hs
      rcases build_reference_snippet_cases _ _ _ _ _ hs' with
        ⟨n, hn, pg, hpg, hnum, hsub⟩ | ⟨fb, hfb, hsub⟩
      · exact Or.inl ⟨n, hn, pg, hpg, hnum, hsub⟩
      · injection hfb with hfb
        refine Or.inr ⟨w, hw, ?_⟩
        rw [← hwtext]
        show isSubstringOf s (pyMaxByLen e es).2.2
        rw [hfb]
        exact hsub
  · subst hc
    refine ⟨?_, ?_⟩
    · intro hsrc
      cases hsrc
    · intro s hs
      have hs' : build_reference_snippet pages (some v) lv.2 none = some s := hs
      rcases build_reference_snippet_cases _ _ _ _ _ hs' with
        ⟨n, hn, pg, hpg, hnum, hsub⟩ | ⟨fb, hfb, _⟩
      · exact Or.inl ⟨n, hn, pg, hpg, hnum, hsub⟩
      · cases hfb

/-- C4 (amended): in every final entry, a non-null `reference_snippet`
is a contiguous substring of the page named by the entry's
`page_number` (a page that then really is among the input pages), or —
for Regex-sourced entries — of the winning hit's window text; and every
Regex-sourced entry's non-null `page_number` names an existing input
page.  (The unamended page-existence clause for Inference entries is
false: a `PAGE=N` marker from the model is stored unchecked, see the
counterexample.) -/
theorem c4_attribution_invariant (eng : RegexEngine)
    (patterns : Str → Option PatternConfig) (sents : Str → List Str)
    (raws : LlmRaws) (pages : List PageText) :
    ∀ f ∈ SUPPORTED_KEYS, ∀ r,
      dictGet (extract_analysis eng patterns sents raws pages) f = some r →
      ((r.source = .Regex → ∀ n, r.page_number = some n →
          ∃ pg ∈ pages, pg.page_number = n) ∧
       (∀ s, r.reference_snippet = some s →
          (∃ n, r.page_number = some n ∧
            ∃ pg ∈ pages, pg.page_number = n ∧ isSubstringOf s pg.text) ∨
          (∃ w ∈ generate_context_windows sents (preprocessPages pages) defaultWindowConfig,
             isSubstringOf s w.text))) := by
  intro f hf
  have hcases : f = "start_date".data ∨ f = "end_date".data ∨ f = "renewal_terms".data ∨
      f = "termination_notice_period".data := by
    simpa [SUPPORTED_KEYS] using hf
  rcases hcases with hfe | hfe | hfe | hfe <;> subst hfe
  · exact c4_field_cases eng patterns sents raws pages _ (by decide) true _
      (finalData_get_start eng patterns sents raws pages)
  · exact c4_field_cases eng patterns sents raws pages _ (by decide) true _
      (finalData_get_end eng patterns sents raws pages)
  · exact c4_field_cases eng patterns sents raws pages _ (by decide) true _
      (finalData_get_renewal eng patterns sents raws pages)
  · exact c4_field_cases eng patterns sents raws pages _ (by decide) false _
      (finalData_get_termination eng patterns sents raws pages)

def rawsC4W : LlmRaws := ⟨some "January 1, 2020 ||| PAGE=7".data, none, none, none⟩

/-- C4 counterexample: with one input page (number 1) and the model
replying `"January 1, 2020 ||| PAGE=7"`, the final Inference entry
stores `page_number = 7` although no page 7 exists among the input
pages — the claim's page-existence clause fails for a page number
recovered from the model's own `PAGE=N` marker. -/
theorem c4_counterexample :
    dictGet (extract_analysis engW (fun _ => none) sentsW rawsC4W pagesW)
        "start_date".data =
      some ⟨some "January 1, 2020".data, .Inference, some 7, none⟩ ∧
    pagesW.map (fun pg => pg.page_number) = [1] :=
  ⟨by decide, by decide⟩

/-- C4 witness: the Regex-sourced start-date entry of a concrete run
names page 1, which exists, and its snippet is attributed. -/
theorem c4_witness :
    dictGet (extract_analysis engW patsW sentsW rawsW pagesW) "start_date".data =
      some ⟨some "agreement".data, .Regex, some 1,
        some "Hello world agreement text.".data⟩ ∧
    (∃ pg ∈ pagesW, pg.page_number = 1) ∧
    ((∃ n, (some 1 : Option Nat) = some n ∧ ∃ pg ∈ pagesW, pg.page_number = n ∧
        isSubstringOf "Hello world agreement text.".data pg.text) ∨
     (∃ w ∈ generate_context_windows sentsW (preprocessPages pagesW) defaultWindowConfig,
        isSubstringOf "Hello world agreement text.".data w.text)) := by
  have hd : dictGet (extract_analysis engW patsW sentsW rawsW pagesW) "start_date".data =
      some ⟨some "agreement".data, .Regex, some 1,
        some "Hello world agreement text.".data⟩ := by decide
  have h := c4_attribution_invariant engW patsW sentsW rawsW pagesW "start_date".data
    (by decide) _ hd
  exact ⟨hd, h.1 rfl 1 rfl, h.2 _ rfl⟩

-- ------------------------------------------------------------------
-- C7
-- ------------------------------------------------------------------

/-- `pyMaxByLen` returns the first entry of maximal value length:
everything before it is strictly shorter, everything after it is no
longer. -/
theorem pyMaxByLen_first_max :
    ∀ (l : List (Str × Option Nat × Str)) (x : Str × Option Nat × Str),
    ∃ pre post, x :: l = pre ++ pyMaxByLen x l :: post ∧
      (∀ y ∈ pre, y.1.length < (pyMaxByLen x l).1.length) ∧
      (∀ y ∈ post, y.1.length ≤ (pyMaxByLen x l).1.length) := by
  intro l
  induction l with
  | nil => exact fun x => ⟨[], [], rfl, by simp, by simp⟩
  | cons y ys ih =>
      intro x
      have hstep : pyMaxByLen x (y :: ys) =
          pyMaxByLen (if y.1.length > x.1.length then y else x) ys := rfl
      by_cases hy : y.1.length > x.1.length
      · rw [hstep, if_pos hy]
        obtain ⟨pre, post, heq, hpre, hpost⟩ := ih y
        refine ⟨x :: pre, post, ?_, ?_, hpost⟩
        · rw [List.cons_append, ← heq]
        · intro z hz
          rcases List.mem_cons.mp hz with hz | hz
          · subst hz
            have hym : y.1.length ≤ (pyMaxByLen y ys).1.length := by
              cases pre with
              | nil =>
                  have hm : y = pyMaxByLen y ys := by
                    have h2 := heq
                    simp only [List.nil_append] at h2
                    exact (List.cons.inj h2).1
                  rw [← hm]
              | cons p ps =>
                  have hpy : p = y := by
                    have h2 := heq
                    rw [List.cons_append] at h2
                    exact (List.cons.inj h2).1.symm
                  have hlt := hpre p (by simp)
                  rw [hpy] at hlt
                  exact le_of_lt hlt
            exact lt_of_lt_of_le hy hym
          · exact hpre z hz
      · rw [hstep, if_neg hy]
        obtain ⟨pre, post, heq, hpre, hpost⟩ := ih x
        have hyx : y.1.length ≤ x.1.length := Nat.not_lt.mp hy
        cases pre with
        | nil =>
            have hm : pyMaxByLen x ys = x ∧ ys = post := by
              have h2 := heq
              simp only [List.nil_append] at h2
              exact ⟨(List.cons.inj h2).1.symm, (List.cons.inj h2).2⟩
            refine ⟨[], y :: ys, ?_, by simp, ?_⟩
            · simp [hm.1]
            · intro z hz
              rcases List.mem_cons.mp hz with hz | hz
              · subst hz; rw [hm.1]; exact hyx
              · exact hpost z (by rw [← hm.2]; exact hz)
        | cons p ps =>
            have hp1 : p = x := by
              have h2 := heq
              rw [List.cons_append] at h2
              exact (List.cons.inj h2).1.symm
            have hp2 : ys = ps ++ pyMaxByLen x ys :: post := by
              have h2 := heq
              rw [List.cons_append] at h2
              exact (List.cons.inj h2).2
            refine ⟨x :: y :: ps, post, ?_, ?_, hpost⟩
            · conv_lhs => rw [hp2]
              rfl
            · intro z hz
              have hxm : x.1.length < (pyMaxByLen x ys).1.length := by
                have hlt := hpre p (by simp)
                rw [hp1] at hlt
                exact hlt
              rcases List.mem_cons.mp hz with hz | hz
              · subst hz; exact hxm
              rcases List.mem_cons.mp hz with hz | hz
              · subst hz; exact lt_of_le_of_lt hyx hxm
              · exact hpre z (List.mem_cons_of_mem _ hz)

/-- C7: for a field with at least one hit, the merged entry is built
from the FIRST hit (in window order) whose raw value has maximal
character length: its value, source Regex, its window's page number,
and a snippet resolved against the pages with that hit's window text as
fallback. -/
theorem c7_merge_selection (patterns : Str → Option PatternConfig)
    (pages : List PageText) (hits : List Hit) (f : Str) (hf : f ∈ SUPPORTED_KEYS)
    (e : Str × Option Nat × Str) (es : List (Str × Option Nat × Str))
    (hge : groupEntries hits f = e :: es) :
    ∃ best,
      dictGet (merge_window_results patterns pages hits) f =
        some ⟨some best.1, .Regex, best.2.1,
          build_reference_snippet pages (some best.1) best.2.1 (some best.2.2)⟩ ∧
      ∃ pre post, groupEntries hits f = pre ++ best :: post ∧
        (∀ y ∈ pre, y.1.length < best.1.length) ∧
        (∀ y ∈ post, y.1.length ≤ best.1.length) := by
  refine ⟨pyMaxByLen e es, ?_, ?_⟩
  · have hm := (merge_source patterns pages hits f hf).2 e es hge
    rw [hm]
    rfl
  · obtain ⟨pre, post, heq, hpre, hpost⟩ := pyMaxByLen_first_max es e
    exact ⟨pre, post, by rw [hge, heq], hpre, hpost⟩

/-- C7 witness: among raw values "ab", "xyz", "abc" the first
maximal-length value "xyz" (window page 2) wins. -/
theorem c7_witness :
    groupEntries
        [("start_date".data, "ab".data, some 1, "w1".data),
         ("start_date".data, "xyz".data, some 2, "w2".data),
         ("start_date".data, "abc".data, some 3, "w3".data)] "start_date".data =
      ("ab".data, some 1, "w1".data) ::
        [("xyz".data, some 2, "w2".data), ("abc".data, some 3, "w3".data)] ∧
    ∃ best,
      dictGet (merge_window_results (fun _ => none) pagesW
          [("start_date".data, "ab".data, some 1, "w1".data),
           ("start_date".data, "xyz".data, some 2, "w2".data),
           ("start_date".data, "abc".data, some 3, "w3".data)]) "start_date".data =
        some ⟨some best.1, .Regex, best.2.1,
          build_reference_snippet pagesW (some best.1) best.2.1 (some best.2.2)⟩ ∧
      ∃ pre post,
        groupEntries
            [("start_date".data, "ab".data, some 1, "w1".data),
             ("start_date".data, "xyz".data, some 2, "w2".data),
             ("start_date".data, "abc".data, some 3, "w3".data)] "start_date".data =
          pre ++ best :: post ∧
        (∀ y ∈ pre, y.1.length < best.1.length) ∧
        (∀ y ∈ post, y.1.length ≤ best.1.length) := by
  refine ⟨by decide, ?_⟩
  exact c7_merge_selection (fun _ => none) pagesW _ "start_date".data (by decide)
    ("ab".data, some 1, "w1".data)
    [("xyz".data, some 2, "w2".data), ("abc".data, some 3, "w3".data)] (by decide)

-- ------------------------------------------------------------------
-- C5
-- ------------------------------------------------------------------

/-- C5: the windowing invariant fails. The heading branch
(contract_extractor.py:246) appends the heading unconditionally -
despite its own comment "keep heading as own window if small" - so a
heading line longer than max_chars_sparse is emitted verbatim as a
window. Concretely, with max_chars_dense = 10 and max_chars_sparse =
20, the 25-character heading line of "1 Abcdefghijklmnopqrstuvw\nx" is
emitted as a window of length 25 > 20, and it is not an emergency
hard-sliced sentence fragment (those have length at most
max_chars_dense = 10). The sentencizer is the identity segmenter,
so every sentence split is trivial here. -/
theorem c5_heading_overflow :
    generate_context_windows_for_text (fun s => [s])
        "1 Abcdefghijklmnopqrstuvw\nx".data ⟨2, 5, 10, 20⟩ =
      ["1 Abcdefghijklmnopqrstuvw".data, "x".data] ∧
    ("1 Abcdefghijklmnopqrstuvw".data).length = 25 ∧ 20 < 25 ∧ 10 < 25 := by
  decide

-- ------------------------------------------------------------------
-- C8
-- ------------------------------------------------------------------

/-- C8: in `find_all` mode, `_apply_pattern_config` returns `None`
exactly when no non-empty trimmed candidate was collected across the
patterns in configuration order; otherwise it returns the distinct
candidates joined by " | " in sorted order without duplicates (the
joined list is sorted, duplicate-free, and holds exactly the collected
candidates); and a pattern whose compilation raises `re.error` is
skipped without affecting what the remaining patterns collect. -/
theorem c8_find_all_mode (eng : RegexEngine) (text : Str) (config : PatternConfig)
    (hfa : config.find_all = true) :
    (apply_pattern_config eng text config = none ↔
      collectFindall eng text config.patterns = []) ∧
    (∀ v, apply_pattern_config eng text config = some v →
      ∃ l, v = List.intercalate " | ".data l ∧ List.Sorted strLeP l ∧ l.Nodup ∧
        ∀ s, s ∈ l ↔ s ∈ collectFindall eng text config.patterns) ∧
    (∀ ps1 p ps2, eng.findall p text = .error () →
      collectFindall eng text (ps1 ++ p :: ps2) =
        collectFindall eng text (ps1 ++ ps2)) := by
  have hdef : apply_pattern_config eng text config =
      (if (collectFindall eng text config.patterns).isEmpty then none
       else some (List.intercalate " | ".data
         (sortedDedup (collectFindall eng text config.patterns)))) := by
    unfold apply_pattern_config
    rw [if_pos hfa]
  refine ⟨?_, ?_, ?_⟩
  · rw [hdef]
    cases h : collectFindall eng text config.patterns with
    | nil => simp
    | cons a l => simp
  · intro v hv
    rw [hdef] at hv
    by_cases hemp : (collectFindall eng text config.patterns).isEmpty = true
    · rw [if_pos hemp] at hv
      exact absurd hv (by simp)
    · rw [if_neg hemp] at hv
      exact ⟨sortedDedup (collectFindall eng text config.patterns),
        (Option.some.inj hv).symm, sortedDedup_sorted _, sortedDedup_nodup _,
        fun s => sortedDedup_mem _ s⟩
  · intro ps1 p ps2 herr
    induction ps1 with
    | nil =>
        have h1 : collectFindall eng text (p :: ps2) =
            match eng.findall p text with
            | .error _ => collectFindall eng text ps2
            | .ok items =>
                items.filterMap findallItemText ++ collectFindall eng text ps2 := rfl
        rw [List.nil_append, List.nil_append, h1, herr]
    | cons q qs ih =>
        have h1 : collectFindall eng text (q :: (qs ++ p :: ps2)) =
            match eng.findall q text with
            | .error _ => collectFindall eng text (qs ++ p :: ps2)
            | .ok items =>
                items.filterMap findallItemText ++
                  collectFindall eng text (qs ++ p :: ps2) := rfl
        have h2 : collectFindall eng text (q :: (qs ++ ps2)) =
            match eng.findall q text with
            | .error _ => collectFindall eng text (qs ++ ps2)
            | .ok items =>
                items.filterMap findallItemText ++
                  collectFindall eng text (qs ++ ps2) := rfl
        show collectFindall eng text (q :: (qs ++ p :: ps2)) =
          collectFindall eng text (q :: (qs ++ ps2))
        rw [h1, h2]
        cases hq : eng.findall q text with
        | error e => exact ih
        | ok items =>
            exact congrArg (fun x => items.filterMap findallItemText ++ x) ih

/-- Concrete engine for the C8 witness: pattern "A" yields string
matches (with surrounding whitespace and a duplicate), "B" is
malformed, "C" yields a tuple match whose empty group is dropped. -/
def engC8 : RegexEngine :=
  ⟨fun p _ =>
     if p = "A" then .ok [.str "beta".data, .str " alpha ".data, .str "beta".data]
     else if p = "B" then .error ()
     else if p = "C" then .ok [.tup ["ga".data, [], "mma".data]]
     else .ok [],
   fun _ _ => .ok none⟩

def cfgC8 : PatternConfig := ⟨["A", "B", "C"], none, none, true⟩

/-- C8 witness: the concrete config is in find_all mode and the
characterization holds for it. -/
theorem c8_witness :
    cfgC8.find_all = true ∧
    ((apply_pattern_config engC8 "txt".data cfgC8 = none ↔
      collectFindall engC8 "txt".data cfgC8.patterns = []) ∧
    (∀ v, apply_pattern_config engC8 "txt".data cfgC8 = some v →
      ∃ l, v = List.intercalate " | ".data l ∧ List.Sorted strLeP l ∧ l.Nodup ∧
        ∀ s, s ∈ l ↔ s ∈ collectFindall engC8 "txt".data cfgC8.patterns) ∧
    (∀ ps1 p ps2, engC8.findall p "txt".data = .error () →
      collectFindall engC8 "txt".data (ps1 ++ p :: ps2) =
        collectFindall engC8 "txt".data (ps1 ++ ps2))) :=
  ⟨rfl, c8_find_all_mode engC8 "txt".data cfgC8 rfl⟩

-- ------------------------------------------------------------------
-- C6
-- ------------------------------------------------------------------

theorem jdictGet_jdictSet_ne (d : JDict) (k k' : Str) (v : JVal)
    (h : k' ≠ k) : jdictGet (jdictSet d k v) k' = jdictGet d k' := by
  have hkk : ¬ ((k : Str) = k') := fun hc => h hc.symm
  induction d with
  | nil => simp [jdictSet, jdictGet, hkk]
  | cons kv rest ih =>
      by_cases h0 : kv.1 = k
      · by_cases h0' : kv.1 = k'
        · exact absurd (h0.symm.trans h0').symm h
        · simp [jdictSet, jdictGet, h0, h0', hkk]
      · simp [jdictSet, jdictGet, h0, ih]

/-- The profiler decorator leaves both measurement keys readable in the
`performance_metrics` sub-dictionary of any result dict. -/
theorem profiler_metrics (r : JDict) (exec_time mem : Str) :
    ∃ pm, jdictGet (performance_profiler_wrap r exec_time mem)
        "performance_metrics".data = some (.dict pm) ∧
      jdictGet pm "execution_time_seconds".data = some (.s exec_time) ∧
      jdictGet pm "peak_memory_usage_mb".data = some (.s mem) := by
  refine ⟨jdictSet (jdictSet
      (match jdictGet r "performance_metrics".data with
        | some (.dict entries) => entries
        | _ => [])
      "execution_time_seconds".data (.s exec_time))
      "peak_memory_usage_mb".data (.s mem), ?_, ?_, ?_⟩
  · exact jdictGet_jdictSet_self r "performance_metrics".data _
  · rw [jdictGet_jdictSet_ne _ _ _ _ (by decide)]
    exact jdictGet_jdictSet_self _ "execution_time_seconds".data _
  · exact jdictGet_jdictSet_self _ "peak_memory_usage_mb".data _

/-- C6: `extract_from_pdf` is total over the document-loader outcomes
(the embedded body is a total function, so no exception escapes): the
`performance_metrics` dict with both measurement keys is merged into
the returned dict on every exit path, and on each failure path -
encrypted document, loader error, or no extractable text - the record
is exactly the top-level error shape: an `error` key with the
human-readable message, plus the merged metrics. -/
theorem c6_error_shape_and_metrics (eng : RegexEngine)
    (patterns : Str → Option PatternConfig) (sents : Str → List Str)
    (raws : LlmRaws) (timestamp exec_time mem : Str) :
    (∀ outcome, ∃ pm,
      jdictGet (extract_from_pdf eng patterns sents raws timestamp exec_time mem outcome)
          "performance_metrics".data = some (.dict pm) ∧
        jdictGet pm "execution_time_seconds".data = some (.s exec_time) ∧
        jdictGet pm "peak_memory_usage_mb".data = some (.s mem)) ∧
    (extract_from_pdf eng patterns sents raws timestamp exec_time mem .encrypted =
      [("error".data, .s "PDF is encrypted and cannot be processed.".data),
       ("performance_metrics".data, .dict
         [("execution_time_seconds".data, .s exec_time),
          ("peak_memory_usage_mb".data, .s mem)])]) ∧
    (∀ msg, extract_from_pdf eng patterns sents raws timestamp exec_time mem
        (.openError msg) =
      [("error".data,
        .s ("Failed to read PDF. The file may be corrupted or in an unsupported format: ".data
             ++ msg)),
       ("performance_metrics".data, .dict
         [("execution_time_seconds".data, .s exec_time),
          ("peak_memory_usage_mb".data, .s mem)])]) ∧
    (∀ texts,
      (extract_text_from_pdf texts).all (fun page => (pyStrip page.text).isEmpty) = true →
      extract_from_pdf eng patterns sents raws timestamp exec_time mem (.ok texts) =
      [("error".data, .s "No readable text found in the PDF.".data),
       ("performance_metrics".data, .dict
         [("execution_time_seconds".data, .s exec_time),
          ("peak_memory_usage_mb".data, .s mem)])]) := by
  refine ⟨?_, rfl, fun msg => rfl, ?_⟩
  · intro outcome
    exact profiler_metrics
      (extract_from_pdf_core eng patterns sents raws timestamp outcome) exec_time mem
  · intro texts h
    have hcore : extract_from_pdf_core eng patterns sents raws timestamp (.ok texts) =
        [("error".data, JVal.s "No readable text found in the PDF.".data)] := by
      show (if (extract_text_from_pdf texts).all (fun page => (pyStrip page.text).isEmpty)
          then [("error".data, JVal.s "No readable text found in the PDF.".data)]
          else jdictSet
            (extract_contract_basics eng patterns sents raws timestamp
              (extract_text_from_pdf texts))
            "pages_analysed".data (.n (extract_text_from_pdf texts).length)) =
        [("error".data, JVal.s "No readable text found in the PDF.".data)]
      rw [if_pos h]
    show performance_profiler_wrap
        (extract_from_pdf_core eng patterns sents raws timestamp (.ok texts))
        exec_time mem = _
    rw [hcore]
    rfl

/-- C6 witness: the encrypted outcome at a concrete environment. -/
theorem c6_witness :
    extract_from_pdf engW patsW sentsW rawsW "ts".data "0.1234".data "1.23".data
        .encrypted =
      [("error".data, .s "PDF is encrypted and cannot be processed.".data),
       ("performance_metrics".data, .dict
         [("execution_time_seconds".data, .s "0.1234".data),
          ("peak_memory_usage_mb".data, .s "1.23".data)])] :=
  (c6_error_shape_and_metrics engW patsW sentsW rawsW "ts".data "0.1234".data
    "1.23".data).2.1
